import Mathlib

/-!
# Titanic exploratory analysis (`week1/app.js`): a shallow embedding

The analysis pipeline of `week1/app.js` is embedded as pure functions over an
explicit dataset (the global `dataset` becomes an argument and a result).

Modelling conventions.

* JavaScript numbers are modelled by an arbitrary linearly ordered field `K`
  (exact arithmetic; `ℚ` is used when a definition is evaluated).  Rounding,
  `NaN` and the infinities of IEEE doubles are outside this model.  Division by
  zero follows the field convention `a / 0 = 0`; where the source can divide
  by zero this is pointed out at the definition.
* Where a claim depends on the rounding or the overflow of doubles, the
  functions it is about are embedded a second time over `Dbl`, a model of
  IEEE 754 binary64 with round to nearest, ties to even (names ending in
  `Dbl`), and the claim is settled there.
* A record is a structure with one field per column.  A column that the
  loader can leave empty is an `Option`; `none` is the loader's `null` (or,
  for the derived columns, an absent property).  Numeric columns hold numbers:
  text, booleans and dates in a numeric cell are outside the model.
* `Math.sqrt` is a parameter of the correlation pass.
* A function that can throw a `TypeError` returns an `Option`; `none` is the
  throw.  Numbers are modelled before formatting (`toFixed`), and the writes
  to the page and to the charts are left out.
-/

namespace Week1

variable {K : Type} [LinearOrderedField K]

/-! ## Data model -/

/-- One passenger record.  `Age = none` is a `null` Age cell, `Embarked = none`
a `null` Embarked cell; `Title`, `FamilySize` and `IsAlone` are `none` while the
property has not been written yet. -/
structure Passenger (K : Type) where
  Survived : K
  Pclass : K
  Name : String
  Sex : String
  Age : Option K
  SibSp : K
  Parch : K
  Fare : K
  Embarked : Option String
  Title : Option String
  FamilySize : Option K
  IsAlone : Option K
deriving DecidableEq

/-- A value read from a record by `p[f]`. -/
inductive Cell (K : Type) where
  | undefined : Cell K
  | null : Cell K
  | num (k : K) : Cell K
  | str (s : String) : Cell K
deriving DecidableEq

/-! ## `calculateMedian` (lines 60-65) -/

/-- Source `calculateMedian(values)`: `0` on the empty array; otherwise sort
ascending (`values.sort((a,b)=>a-b)`), `half = floor(length/2)`, and return the
mean of `values[half-1]` and `values[half]` for an even length, `values[half]`
for an odd one.  The indices read are always in range, so the default of
`getD` is never returned. -/
def calculateMedian (values : List K) : K :=
  if values.length = 0 then 0
  else
    let sorted := values.insertionSort (· ≤ ·)
    let half := values.length / 2
    if values.length % 2 = 0 then (sorted.getD (half - 1) 0 + sorted.getD half 0) / 2
    else sorted.getD half 0

/-- The reference median of the spec, read off an ascending arrangement `s` of
the values: `0` when there are none, the middle element when the length `n` is
odd, the average of the elements at indices `n/2 - 1` and `n/2` when it is
even.  The result is `none` if an index were out of range. -/
def referenceMedian (s : List K) : Option K :=
  if s.length = 0 then some 0
  else if s.length % 2 = 1 then s[s.length / 2]?
  else
    match s[s.length / 2 - 1]?, s[s.length / 2]? with
    | some a, some b => some ((a + b) / 2)
    | _, _ => none


/-! ## `preprocessData` (lines 40-58) -/

/-- Worker of `String.prototype.split` for a non-empty separator `sep`: scan
left to right; where `sep` starts, close the current piece and skip the
separator (`skip` counts the separator characters still to pass over); at the
end of the text close the last piece.  `acc` is the current piece, reversed. -/
def splitGo (sep : List Char) : List Char → Nat → List Char → List (List Char)
  | [], _, acc => [acc.reverse]
  | _ :: cs, skip + 1, acc => splitGo sep cs skip acc
  | c :: cs, 0, acc =>
      if sep.isPrefixOf (c :: cs) then acc.reverse :: splitGo sep cs (sep.length - 1) []
      else splitGo sep cs 0 (c :: acc)

/-- Source `s.split(sep)` for a non-empty separator string. -/
def jsSplit (s sep : String) : List String :=
  (splitGo sep.data s.data 0 []).map String.mk

/-- Lines 46-50: `nameParts = Name.split(', ')`; when `nameParts.length > 1`
the title is `nameParts[1].split('. ')[0]` (`none` would be the `undefined` of
an empty array), otherwise `'Unknown'`. -/
def rawTitle (name : String) : Option String :=
  match jsSplit name ", " with
  | _ :: second :: _ => (jsSplit second ". ").head?
  | _ => some "Unknown"

/-- Line 52: `commonTitles`. -/
def commonTitles : List String := ["Mr", "Miss", "Mrs", "Master"]

/-- Lines 52-53: a title that `commonTitles` does not include becomes
`'Other'`. -/
def normalizeTitle (title : Option String) : Option String :=
  match title with
  | some t => if t ∈ commonTitles then some t else some "Other"
  | none => some "Other"

/-- The test `!passenger.Embarked`: `null` and the empty string are falsy. -/
def embarkedFalsy : Option String → Bool
  | none => true
  | some s => s = ""

/-- The body of the `forEach` callback of `preprocessData` (lines 42-56), run
on `passenger` while the array holds `dataset` (which contains `passenger`
itself, still unprocessed).  A `null` Age becomes the median of the Ages that
are numbers in the array as it is now. -/
def processPassenger (dataset : List (Passenger K)) (passenger : Passenger K) : Passenger K :=
  let age : Option K :=
    match passenger.Age with
    | none => some (calculateMedian (dataset.map (fun p => p.Age)).reduceOption)
    | some a => some a
  let embarked : Option String :=
    if embarkedFalsy passenger.Embarked then some "S" else passenger.Embarked
  let title : Option String := normalizeTitle (rawTitle passenger.Name)
  let familySize : K := passenger.SibSp + passenger.Parch + 1
  let isAlone : K := if familySize = 1 then 1 else 0
  { passenger with
    Age := age, Embarked := embarked, Title := title,
    FamilySize := some familySize, IsAlone := some isAlone }

/-- The `forEach` of `preprocessData`: `done` holds the records already
rewritten in place, the second argument those still to visit; the array seen by
the callback is `done ++ passenger :: rest`. -/
def preprocessLoop (done : List (Passenger K)) : List (Passenger K) → List (Passenger K)
  | [] => done
  | passenger :: rest =>
      preprocessLoop (done ++ [processPassenger (done ++ passenger :: rest) passenger]) rest

/-- Source `preprocessData()`, with the global `dataset` as argument and the
mutated array as result. -/
def preprocessData (dataset : List (Passenger K)) : List (Passenger K) :=
  preprocessLoop [] dataset

/-! ## Reading a column -/

/-- Source `p[f]` for the column names of the schema and the derived columns;
any other property is `undefined`. -/
def Passenger.get (p : Passenger K) (f : String) : Cell K :=
  match f with
  | "Survived" => Cell.num p.Survived
  | "Pclass" => Cell.num p.Pclass
  | "Name" => Cell.str p.Name
  | "Sex" => Cell.str p.Sex
  | "Age" => match p.Age with
    | some a => Cell.num a
    | none => Cell.null
  | "SibSp" => Cell.num p.SibSp
  | "Parch" => Cell.num p.Parch
  | "Fare" => Cell.num p.Fare
  | "Embarked" => match p.Embarked with
    | some e => Cell.str e
    | none => Cell.null
  | "Title" => match p.Title with
    | some t => Cell.str t
    | none => Cell.undefined
  | "FamilySize" => match p.FamilySize with
    | some n => Cell.num n
    | none => Cell.undefined
  | "IsAlone" => match p.IsAlone with
    | some n => Cell.num n
    | none => Cell.undefined
  | _ => Cell.undefined

/-- The number a cell stands for in arithmetic: a number is itself and `null`
is `0`.  `undefined` and text would be `NaN`, which `K` does not have; they
read as `0` here, and the statements about numeric columns are about cells
that are numbers. -/
def Cell.toNum : Cell K → K
  | Cell.num k => k
  | _ => 0

/-! ## `analyzeFeatureImportance`, categorical pass (lines 106-117) -/

/-- Source `[...new Set(xs)]`: the distinct values of `xs` in the order of
their first occurrence. -/
def distinct {α : Type} [DecidableEq α] (xs : List α) : List α :=
  xs.foldl (fun seen x => if x ∈ seen then seen else seen ++ [x]) []

/-- The value stored under a category: `{ rate, total }`. -/
structure CategoryStat (K : Type) where
  rate : K
  total : Nat
deriving DecidableEq

/-- Line 106: `categoricalFeatures`. -/
def categoricalFeatures : List String := ["Pclass", "Sex", "Embarked", "Title", "IsAlone"]

/-- Lines 109-115 for one feature `f`: for each distinct value `c` of the
column, `pass` are the records with `p[f] === c`, `surv` counts those with
`Survived === 1`, and the entry written is `{ rate: surv/pass.length*100,
total: pass.length }`.  The object `obj` is the list of the entries written, in
order, keyed by the category itself (the coercion of property keys to text is
not modelled). -/
def categoryStats (dataset : List (Passenger K)) (f : String) : List (Cell K × CategoryStat K) :=
  let categories := distinct (dataset.map (fun p => p.get f))
  categories.map (fun c =>
    let pass := dataset.filter (fun p => p.get f = c)
    let surv := (pass.filter (fun p => p.Survived = 1)).length
    (c, { rate := (surv : K) / (pass.length : K) * 100, total := pass.length }))

/-- Lines 107-117: `categoricalResults`, one entry per categorical feature. -/
def categoricalResults (dataset : List (Passenger K)) :
    List (String × List (Cell K × CategoryStat K)) :=
  categoricalFeatures.map (fun f => (f, categoryStats dataset f))

/-- Line 119: `numericFeatures`. -/
def numericFeatures : List String := ["Age", "Fare", "FamilySize", "SibSp", "Parch"]

/-- Lines 120-125: `numericResults`, for each numeric feature the pair
`{ survived, all }` of the column restricted to `Survived === 1` and the whole
column. -/
def numericResults (dataset : List (Passenger K)) :
    List (String × List (Cell K) × List (Cell K)) :=
  numericFeatures.map (fun f =>
    (f, (dataset.filter (fun p => p.Survived = 1)).map (fun p => p.get f),
      dataset.map (fun p => p.get f)))

/-- Source `analyzeFeatureImportance()`: the two result objects it builds and
hands to the charts and to `determineMostImportantFactor`. -/
def analyzeFeatureImportance (dataset : List (Passenger K)) :
    List (String × List (Cell K × CategoryStat K)) ×
      List (String × List (Cell K) × List (Cell K)) :=
  (categoricalResults dataset, numericResults dataset)

/-! ## `calculateCorrelations` (lines 164-173) -/

/-- Line 165: `numeric`. -/
def numeric : List String := ["Age", "Fare", "SibSp", "Parch", "FamilySize"]

/-- Source `xs.reduce((a,b)=>a+b,0)/xs.length`.  On the empty array the source
gets `NaN` (`0/0`) and the model `0`; the loop that would use it does not run
then. -/
def mean (xs : List K) : K :=
  xs.foldl (· + ·) 0 / (xs.length : K)

/-- Lines 169-171: the sums `(num, dx, dy)` accumulated by the `for` loop over
the paired series `x[i]`, `y[i]` (the two arrays have the same length, both
being maps of `dataset`). -/
def correlationSums (x y : List K) : K × K × K :=
  let xM := mean x
  let yM := mean y
  (List.zip x y).foldl
    (fun (acc : K × K × K) (xy : K × K) =>
      (acc.1 + (xy.1 - xM) * (xy.2 - yM), acc.2.1 + (xy.1 - xM) ^ 2, acc.2.2 + (xy.2 - yM) ^ 2))
    (0, 0, 0)

/-- Line 172: `dx&&dy ? num/Math.sqrt(dx*dy) : 0`, on the sums of the loop. -/
def pearson (sqrt : K → K) (x y : List K) : K :=
  let s := correlationSums x y
  if s.2.1 ≠ 0 ∧ s.2.2 ≠ 0 then s.1 / sqrt (s.2.1 * s.2.2) else 0

/-- Lines 168-172 for one feature `f`: `x` is the column `f`, `y` the column
`Survived`. -/
def correlation (sqrt : K → K) (dataset : List (Passenger K)) (f : String) : K :=
  pearson sqrt (dataset.map (fun p => (p.get f).toNum)) (dataset.map (fun p => p.Survived))

/-- Lines 164-173: the object `corr`, one coefficient per numeric feature. -/
def calculateCorrelations (sqrt : K → K) (dataset : List (Passenger K)) : List (String × K) :=
  numeric.map (fun f => (f, correlation sqrt dataset f))

/-! ## `generateOverview` (lines 67-77) -/

/-- The numbers shown by `generateOverview`, before `toFixed(2)`. -/
structure Overview (K : Type) where
  total : Nat
  survived : Nat
  survivedPct : K
  perishedPct : K
deriving DecidableEq

/-- Source `generateOverview()`: `total`, `survived`, `survived/total*100` and
`100-survived/total*100`.  The list of feature names (`Object.keys(dataset[0])`)
and the HTML around the numbers are left out. -/
def generateOverview (dataset : List (Passenger K)) : Overview K :=
  let total := dataset.length
  let survived := (dataset.filter (fun p => p.Survived = 1)).length
  { total := total, survived := survived,
    survivedPct := (survived : K) / (total : K) * 100,
    perishedPct := 100 - (survived : K) / (total : K) * 100 }

/-! ## `determineMostImportantFactor` (lines 226-234) -/

/-- Source `obj[key]` on an object given as the list of its entries: the value
stored under `key`, `none` for `undefined`.  The keys of an object are
distinct. -/
def lookupKey {α β : Type} [DecidableEq α] (key : α) (obj : List (α × β)) : Option β :=
  (obj.find? (fun e => e.1 = key)).map (fun e => e.2)

/-- Source `Math.max(...xs)` on a non-empty array; on the empty array the
source gets `-Infinity`, here `none`. -/
def mathMax : List K → Option K
  | [] => none
  | x :: xs => some (xs.foldl max x)

/-- Source `Math.min(...xs)` on a non-empty array; on the empty array the
source gets `Infinity`, here `none`. -/
def mathMin : List K → Option K
  | [] => none
  | x :: xs => some (xs.foldl min x)

/-- What `determineMostImportantFactor` writes into `keyFinding`: the factor
name and the detail, the latter as the labelled rates it shows, before
`toFixed(2)`; the empty detail string is the empty list. -/
structure KeyFinding (K : Type) where
  factor : String
  details : List (String × K)
deriving DecidableEq

/-- Source `determineMostImportantFactor(catResults,numResults)`.  The result
is `none` when the source throws a `TypeError` by reading a property of
`undefined` (a missing `Sex`, `male`, `female` or `Pclass` entry, or a missing
`1` or `3` entry when the class detail is built); nothing is written then.  The
keys `'male'`, `'female'`, `'1'`, `'3'` are the categories text `male`, text
`female`, number `1`, number `3`.  An empty `Pclass` entry gives the impact
`-Infinity`, which is not greater than `maxImpact`.  `numResults` is not
read. -/
def determineMostImportantFactor (catResults : List (String × List (Cell K × CategoryStat K)))
    (_numResults : List (String × List (Cell K) × List (Cell K))) : Option (KeyFinding K) :=
  match lookupKey "Sex" catResults with
  | none => none
  | some sex =>
    match lookupKey (Cell.str "male") sex, lookupKey (Cell.str "female") sex with
    | some male, some female =>
      let genderImpact := |male.rate - female.rate|
      let afterGender : K × KeyFinding K :=
        if genderImpact > 0 then
          (genderImpact,
            { factor := "Gender", details := [("Female", female.rate), ("Male", male.rate)] })
        else (0, { factor := "", details := [] })
      match lookupKey "Pclass" catResults with
      | none => none
      | some pclass =>
        match mathMax (pclass.map (fun e => e.2.rate)), mathMin (pclass.map (fun e => e.2.rate)) with
        | some hi, some lo =>
          if hi - lo > afterGender.1 then
            match lookupKey (Cell.num 1) pclass, lookupKey (Cell.num 3) pclass with
            | some first, some third =>
              some { factor := "Passenger Class",
                     details := [("1st class", first.rate), ("3rd class", third.rate)] }
            | _, _ => none
          else some afterGender.2
        | _, _ => some afterGender.2
    | _, _ => none

/-! ## `getBins` (lines 218-223) and its caller `createAgeChart` -/

section Bins

variable [FloorRing K]

/-- Line 221: `idx = Math.floor((v-min)/step)`, replaced by `binsCount-1` when
it equals `binsCount`.  With `step` equal to `0` the quotient is `NaN` (or an
infinity), and so is `idx`: `none`. -/
def binIndex (min step : K) (binsCount : Nat) (v : K) : Option Int :=
  if step = 0 then none
  else
    let idx := Int.floor ((v - min) / step)
    some (if idx = (binsCount : Int) then (binsCount : Int) - 1 else idx)

/-- Source `bins[i]++` for an index `i` of the array. -/
def incrementAt : List Nat → Nat → List Nat
  | [], _ => []
  | b :: bs, 0 => (b + 1) :: bs
  | b :: bs, i + 1 => b :: incrementAt bs i

/-- Source `bins[idx]++`.  A key that is not an index of the array (`NaN`, an
infinity, a negative number) makes the source write a property beside the
entries, which stay as they are.  An index past the end would make the source
lengthen the array; with exact arithmetic `idx` never is one, and the entries
stay as they are here. -/
def incrementBin (bins : List Nat) : Option Int → List Nat
  | some (Int.ofNat i) => incrementAt bins i
  | _ => bins

/-- Source `getBins(values,binsCount)`.  On the empty array `min` and `max`
are infinities and the loop does not run.  The model's `step` is also `0` for
`binsCount = 0`, where the source's index is `-1`; the array is empty then in
both. -/
def getBins (values : List K) (binsCount : Nat) : List Nat :=
  match mathMin values, mathMax values with
  | some min, some max =>
    let step := (max - min) / (binsCount : K)
    values.foldl (fun bins v => incrementBin bins (binIndex min step binsCount v))
      (List.replicate binsCount 0)
  | _, _ => List.replicate binsCount 0

/-- Lines 194-197 of `createAgeChart`: the Ages of the survivors and the bins
`getBins` makes of them with `binsCount = 10`.  A cell that is not a number
reads as in `Cell.toNum`. -/
def survivedBins (dataset : List (Passenger K)) : List Nat :=
  getBins ((dataset.filter (fun p => p.Survived = 1)).map (fun p => (p.get "Age").toNum)) 10

end Bins

/-! ## The split rule of the spec, for comparison with `rawTitle` -/

/-- The text `sep` occurs in the text `s` (`s.includes(sep)`). -/
def containsText (s sep : String) : Prop :=
  sep.data <:+: s.data

/-- Following the spec's words: `piece` is the part of `s` that precedes its
first `sep`, or the whole of `s` when `sep` does not occur in it.  (For the two
separators of the source, ", " and ". ", made of two different characters, a
piece free of the separator and followed by it ends where the first occurrence
starts.) -/
def IsFirstPiece (sep s piece : String) : Prop :=
  ¬ containsText piece sep ∧ (s = piece ∨ ∃ rest : String, s = piece ++ sep ++ rest)

/-- The snapshot policy of the spec's design note: the median of the Ages that
are numbers is computed once, before any record is rewritten, and is the Age of
every record whose Age is missing; the Ages after imputation, in order. -/
def imputeAgeSnapshot (dataset : List (Passenger K)) : List (Option K) :=
  let median := calculateMedian (dataset.map (fun p => p.Age)).reduceOption
  dataset.map (fun p =>
    match p.Age with
    | none => some median
    | some a => some a)

/-! ## The example dataset of the spec (section 8) -/

/-- Record 1 of the end-to-end example, as the loader delivers it. -/
def record1 : Passenger K :=
  { Survived := 1, Pclass := 1, Name := "Smith, Mrs. Jane", Sex := "female", Age := some 29,
    SibSp := 0, Parch := 0, Fare := 100, Embarked := some "C",
    Title := none, FamilySize := none, IsAlone := none }

/-- Record 2 of the end-to-end example. -/
def record2 : Passenger K :=
  { Survived := 0, Pclass := 3, Name := "Jones, Mr. Tom", Sex := "male", Age := some 22,
    SibSp := 1, Parch := 0, Fare := 7, Embarked := some "S",
    Title := none, FamilySize := none, IsAlone := none }

/-- Record 3 of the end-to-end example; its Age is missing. -/
def record3 : Passenger K :=
  { Survived := 1, Pclass := 1, Name := "Brown, Miss. Ann", Sex := "female", Age := none,
    SibSp := 0, Parch := 0, Fare := 90, Embarked := some "C",
    Title := none, FamilySize := none, IsAlone := none }

/-- Record 4 of the end-to-end example. -/
def record4 : Passenger K :=
  { Survived := 0, Pclass := 3, Name := "Lee, Mr. Sam", Sex := "male", Age := some 30,
    SibSp := 0, Parch := 0, Fare := 8, Embarked := some "S",
    Title := none, FamilySize := none, IsAlone := none }

/-- The 4-record example dataset. -/
def exampleDataset : List (Passenger K) := [record1, record2, record3, record4]

/-- A record whose Embarked cell holds a text other than the three port
codes. -/
def strayPortRecord : Passenger K :=
  { Survived := 0, Pclass := 2, Name := "Doe, Mr. John", Sex := "male", Age := some 40,
    SibSp := 0, Parch := 0, Fare := 13, Embarked := some "X",
    Title := none, FamilySize := none, IsAlone := none }

/-- A record whose Name has no ", " separator. -/
def plainNameRecord : Passenger K :=
  { Survived := 1, Pclass := 2, Name := "Smith", Sex := "female", Age := some 35,
    SibSp := 0, Parch := 0, Fare := 20, Embarked := none,
    Title := none, FamilySize := none, IsAlone := none }

/-- The categorical and numeric results of the pipeline on `dataset`:
`preprocessData()` followed by `analyzeFeatureImportance()`, as `performAnalysis`
runs them. -/
def analysisOf (dataset : List (Passenger K)) :
    List (String × List (Cell K × CategoryStat K)) ×
      List (String × List (Cell K) × List (Cell K)) :=
  analyzeFeatureImportance (preprocessData dataset)

/-- Four records with two sexes and the passenger classes 1 and 2 only. -/
def twoClassDataset : List (Passenger K) :=
  [{ (record1 : Passenger K) with Sex := "male", Pclass := 1, Survived := 1 },
   { (record1 : Passenger K) with Sex := "female", Pclass := 1, Survived := 1 },
   { (record1 : Passenger K) with Sex := "female", Pclass := 2, Survived := 0 },
   { (record1 : Passenger K) with Sex := "male", Pclass := 2, Survived := 0 }]

/-- Four records in which passenger class 2 has the highest survival rate. -/
def middleClassDataset : List (Passenger K) :=
  [{ (record1 : Passenger K) with Sex := "male", Pclass := 1, Survived := 1 },
   { (record1 : Passenger K) with Sex := "female", Pclass := 1, Survived := 0 },
   { (record1 : Passenger K) with Sex := "female", Pclass := 2, Survived := 1 },
   { (record1 : Passenger K) with Sex := "male", Pclass := 3, Survived := 0 }]

/-- Four records in which both sexes and both passenger classes have the same
survival rate. -/
def evenDataset : List (Passenger K) :=
  [{ (record1 : Passenger K) with Sex := "male", Pclass := 1, Survived := 1 },
   { (record1 : Passenger K) with Sex := "male", Pclass := 3, Survived := 0 },
   { (record1 : Passenger K) with Sex := "female", Pclass := 1, Survived := 0 },
   { (record1 : Passenger K) with Sex := "female", Pclass := 3, Survived := 1 }]

/-! ## IEEE 754 doubles

The claims whose truth depends on the rounding or the overflow of the source's
numbers are settled on a second embedding, in which a JavaScript number is a
double: a finite value (held exactly, as a rational), an infinity or `NaN`, and
every arithmetic operation rounds its exact result to the nearest double, ties
to even.  The sign of zero is not modelled. -/

/-- A JavaScript number as an IEEE 754 binary64 value. -/
inductive Dbl where
  | finite (q : ℚ) : Dbl
  | posInf : Dbl
  | negInf : Dbl
  | nan : Dbl
deriving DecidableEq

/-- The power `2 ^ e` for an integer exponent. -/
def pow2 (e : Int) : ℚ :=
  if 0 ≤ e then ((2 ^ e.toNat : Nat) : ℚ) else 1 / ((2 ^ (-e).toNat : Nat) : ℚ)

/-- Worker of `natLog2`: halve `n` until it is below 2, at most `fuel`
times. -/
def log2Fuel : Nat → Nat → Nat
  | 0, _ => 0
  | fuel + 1, n => if 2 ≤ n then log2Fuel fuel (n / 2) + 1 else 0

/-- The exponent of a positive natural number: the `e` with
`2 ^ e ≤ n < 2 ^ (e + 1)`. -/
def natLog2 (n : Nat) : Nat :=
  log2Fuel n n

/-- The exponent of a positive rational: the `e` with `2 ^ e ≤ a < 2 ^ (e + 1)`. -/
def floorLog2 (a : ℚ) : Int :=
  let e : Int := (natLog2 a.num.natAbs : Int) - (natLog2 a.den : Int)
  if a < pow2 e then e - 1 else e

/-- The integer nearest to a non-negative rational, ties to the even one. -/
def roundHalfEven (m : ℚ) : Int :=
  let f : Int := Rat.floor m
  let frac : ℚ := m - (f : ℚ)
  if frac < 1 / 2 then f
  else if 1 / 2 < frac then f + 1
  else if f % 2 = 0 then f else f + 1

/-- The double nearest to the rational `q`, ties to even: 53 significant bits,
least exponent -1022 (below it the spacing stays `2 ^ -1074`), and an infinity
when the rounded magnitude reaches `2 ^ 1024`. -/
def Dbl.round (q : ℚ) : Dbl :=
  if q = 0 then Dbl.finite 0
  else
    let a : ℚ := if 0 ≤ q then q else -q
    let e : Int := max (floorLog2 a) (-1022)
    let ulp : ℚ := pow2 (e - 52)
    let r : ℚ := (roundHalfEven (a / ulp) : ℚ) * ulp
    if pow2 1024 ≤ r then (if 0 < q then Dbl.posInf else Dbl.negInf)
    else Dbl.finite (if 0 < q then r else -r)

/-- Source `a + b` on numbers. -/
def Dbl.add : Dbl → Dbl → Dbl
  | Dbl.finite a, Dbl.finite b => Dbl.round (a + b)
  | Dbl.nan, _ => Dbl.nan
  | _, Dbl.nan => Dbl.nan
  | Dbl.posInf, Dbl.negInf => Dbl.nan
  | Dbl.negInf, Dbl.posInf => Dbl.nan
  | Dbl.posInf, _ => Dbl.posInf
  | _, Dbl.posInf => Dbl.posInf
  | Dbl.negInf, _ => Dbl.negInf
  | _, Dbl.negInf => Dbl.negInf

/-- Source `-a`. -/
def Dbl.neg : Dbl → Dbl
  | Dbl.finite a => Dbl.finite (-a)
  | Dbl.posInf => Dbl.negInf
  | Dbl.negInf => Dbl.posInf
  | Dbl.nan => Dbl.nan

/-- Source `a - b` on numbers. -/
def Dbl.sub (a b : Dbl) : Dbl :=
  Dbl.add a (Dbl.neg b)

/-- The sign of a number that is not `NaN`: `1`, `0` or `-1`. -/
def Dbl.sign : Dbl → Int
  | Dbl.finite a => if 0 < a then 1 else if a < 0 then -1 else 0
  | Dbl.posInf => 1
  | Dbl.negInf => -1
  | Dbl.nan => 0

/-- Source `a * b` on numbers. -/
def Dbl.mul : Dbl → Dbl → Dbl
  | Dbl.finite a, Dbl.finite b => Dbl.round (a * b)
  | Dbl.nan, _ => Dbl.nan
  | _, Dbl.nan => Dbl.nan
  | a, b =>
    if Dbl.sign a * Dbl.sign b = 0 then Dbl.nan
    else if 0 < Dbl.sign a * Dbl.sign b then Dbl.posInf else Dbl.negInf

/-- Source `a / b` on numbers.  A zero divisor counts as `+0`. -/
def Dbl.div : Dbl → Dbl → Dbl
  | Dbl.nan, _ => Dbl.nan
  | _, Dbl.nan => Dbl.nan
  | Dbl.finite a, Dbl.finite b =>
    if b = 0 then
      (if a = 0 then Dbl.nan else if 0 < a then Dbl.posInf else Dbl.negInf)
    else Dbl.round (a / b)
  | Dbl.finite _, _ => Dbl.finite 0
  | a, Dbl.finite b =>
    if 0 ≤ Dbl.sign a * (if b < 0 then -1 else 1) then
      (if Dbl.sign a * (if b < 0 then -1 else 1) = 0 then Dbl.nan else Dbl.posInf)
    else Dbl.negInf
  | _, _ => Dbl.nan

/-- Source `a > b` on numbers: false when either is `NaN`. -/
def Dbl.gt : Dbl → Dbl → Bool
  | Dbl.nan, _ => false
  | _, Dbl.nan => false
  | Dbl.finite a, Dbl.finite b => decide (b < a)
  | Dbl.posInf, Dbl.posInf => false
  | Dbl.posInf, _ => true
  | _, Dbl.posInf => false
  | Dbl.negInf, _ => false
  | _, Dbl.negInf => true

/-- Source `isNaN(a)` on a number. -/
def Dbl.isNaN : Dbl → Bool
  | Dbl.nan => true
  | _ => false

/-- Truthiness of a number: `0` and `NaN` are falsy. -/
def Dbl.truthy : Dbl → Bool
  | Dbl.finite a => decide (a ≠ 0)
  | Dbl.nan => false
  | _ => true

/-- The integer square root, by binary digits: `isqrtAux n k r` fixes the `k`
low digits of the root whose high digits are `r`. -/
def isqrtAux (n : Nat) : Nat → Nat → Nat
  | 0, r => r
  | k + 1, r => isqrtAux n k (if (r + 2 ^ k) * (r + 2 ^ k) ≤ n then r + 2 ^ k else r)

/-- The greatest `r` with `r * r ≤ n`. -/
def isqrt (n : Nat) : Nat :=
  isqrtAux n (natLog2 n / 2 + 1) 0

/-- Source `Math.sqrt(a)`: the double nearest to the exact square root. -/
def Dbl.sqrt : Dbl → Dbl
  | Dbl.finite q =>
    if q < 0 then Dbl.nan
    else if q = 0 then Dbl.finite 0
    else
      let e : Int := floorLog2 q / 2
      let ulp : ℚ := pow2 (e - 52)
      let x : ℚ := q / (ulp * ulp)
      let s : Nat := isqrt (Rat.floor x).toNat
      let half : ℚ := ((s : ℚ) + 1 / 2) * ((s : ℚ) + 1 / 2)
      let r : Nat := if x < half then s else if half < x then s + 1
        else if s % 2 = 0 then s else s + 1
      Dbl.finite ((r : ℚ) * ulp)
  | Dbl.posInf => Dbl.posInf
  | _ => Dbl.nan

/-! ### The median and the imputation on doubles -/

/-- Source `calculateMedian(values)` on doubles.  `sort((a,b)=>a-b)` keeps `a`
before `b` unless `a-b > 0`; on an array without `NaN` (every caller filters
`NaN` out) this comparator is an order and the sorted array is the one built
here.  An index out of range would read `undefined`; none is. -/
def calculateMedianDbl (values : List Dbl) : Dbl :=
  if values.length = 0 then Dbl.finite 0
  else
    let sorted := values.insertionSort
      (fun a b => Dbl.gt (Dbl.sub a b) (Dbl.finite 0) = false)
    let half := values.length / 2
    if values.length % 2 = 0 then
      Dbl.div (Dbl.add (sorted.getD (half - 1) Dbl.nan) (sorted.getD half Dbl.nan))
        (Dbl.finite 2)
    else sorted.getD half Dbl.nan

/-- Source `dataset.map(p => p.Age).filter(a => !isNaN(a) && a !== null)`. -/
def numericAges (dataset : List (Passenger Dbl)) : List Dbl :=
  (dataset.map (fun p => p.Age)).filterMap (fun a =>
    match a with
    | some v => if Dbl.isNaN v then none else some v
    | none => none)

/-- The body of the `forEach` callback of `preprocessData` (lines 42-56) on
records whose numbers are doubles. -/
def processPassengerDbl (dataset : List (Passenger Dbl)) (passenger : Passenger Dbl) :
    Passenger Dbl :=
  let age : Option Dbl :=
    match passenger.Age with
    | none => some (calculateMedianDbl (numericAges dataset))
    | some a => if Dbl.isNaN a then some (calculateMedianDbl (numericAges dataset)) else some a
  let embarked : Option String :=
    if embarkedFalsy passenger.Embarked then some "S" else passenger.Embarked
  let title : Option String := normalizeTitle (rawTitle passenger.Name)
  let familySize : Dbl := Dbl.add (Dbl.add passenger.SibSp passenger.Parch) (Dbl.finite 1)
  let isAlone : Dbl := if familySize = Dbl.finite 1 then Dbl.finite 1 else Dbl.finite 0
  { passenger with
    Age := age, Embarked := embarked, Title := title,
    FamilySize := some familySize, IsAlone := some isAlone }

/-- The `forEach` of `preprocessData` on doubles; see `preprocessLoop`. -/
def preprocessLoopDbl (done : List (Passenger Dbl)) : List (Passenger Dbl) → List (Passenger Dbl)
  | [] => done
  | passenger :: rest =>
      preprocessLoopDbl (done ++ [processPassengerDbl (done ++ passenger :: rest) passenger]) rest

/-- Source `preprocessData()` on doubles. -/
def preprocessDataDbl (dataset : List (Passenger Dbl)) : List (Passenger Dbl) :=
  preprocessLoopDbl [] dataset

/-! ### The correlation pass on doubles -/

/-- The number a numeric column holds in a record, as arithmetic reads it: a
`null` Age is `0`, an absent FamilySize is `NaN`. -/
def numericCellDbl (p : Passenger Dbl) (f : String) : Dbl :=
  match f with
  | "Survived" => p.Survived
  | "Age" => match p.Age with
    | some a => a
    | none => Dbl.finite 0
  | "Fare" => p.Fare
  | "SibSp" => p.SibSp
  | "Parch" => p.Parch
  | "FamilySize" => match p.FamilySize with
    | some n => n
    | none => Dbl.nan
  | _ => Dbl.nan

/-- Source `xs.reduce((a,b)=>a+b,0)/xs.length` on doubles. -/
def meanDbl (xs : List Dbl) : Dbl :=
  Dbl.div (xs.foldl Dbl.add (Dbl.finite 0)) (Dbl.finite (xs.length : ℚ))

/-- Source `Math.pow(v,2)`: the double nearest to the exact square, which is
the square itself when that is a double. -/
def Dbl.square (v : Dbl) : Dbl :=
  Dbl.mul v v

/-- Lines 169-171 on doubles: the sums `(num, dx, dy)` of the `for` loop. -/
def correlationSumsDbl (x y : List Dbl) : Dbl × Dbl × Dbl :=
  let xM := meanDbl x
  let yM := meanDbl y
  (List.zip x y).foldl
    (fun (acc : Dbl × Dbl × Dbl) (xy : Dbl × Dbl) =>
      (Dbl.add acc.1 (Dbl.mul (Dbl.sub xy.1 xM) (Dbl.sub xy.2 yM)),
        Dbl.add acc.2.1 (Dbl.square (Dbl.sub xy.1 xM)),
        Dbl.add acc.2.2 (Dbl.square (Dbl.sub xy.2 yM))))
    (Dbl.finite 0, Dbl.finite 0, Dbl.finite 0)

/-- Line 172 on doubles: `dx&&dy ? num/Math.sqrt(dx*dy) : 0`. -/
def pearsonDbl (x y : List Dbl) : Dbl :=
  let s := correlationSumsDbl x y
  if Dbl.truthy s.2.1 && Dbl.truthy s.2.2 then Dbl.div s.1 (Dbl.sqrt (Dbl.mul s.2.1 s.2.2))
  else Dbl.finite 0

/-- Lines 164-173 on doubles: the object `corr`. -/
def calculateCorrelationsDbl (dataset : List (Passenger Dbl)) : List (String × Dbl) :=
  numeric.map (fun f =>
    (f, pearsonDbl (dataset.map (fun p => numericCellDbl p f))
      (dataset.map (fun p => p.Survived))))

/-! ### Datasets of doubles -/

/-- Three records whose Fare is 7.1 (the double nearest to it) and whose
Survived values are 1, 0, 0. -/
def constantFareDataset : List (Passenger Dbl) :=
  [{ Survived := Dbl.finite 1, Pclass := Dbl.finite 3, Name := "Jones, Mr. Tom", Sex := "male",
     Age := some (Dbl.finite 22), SibSp := Dbl.finite 0, Parch := Dbl.finite 0,
     Fare := Dbl.round (71 / 10), Embarked := some "S",
     Title := none, FamilySize := none, IsAlone := none },
   { Survived := Dbl.finite 0, Pclass := Dbl.finite 3, Name := "Lee, Mr. Sam", Sex := "male",
     Age := some (Dbl.finite 30), SibSp := Dbl.finite 0, Parch := Dbl.finite 0,
     Fare := Dbl.round (71 / 10), Embarked := some "S",
     Title := none, FamilySize := none, IsAlone := none },
   { Survived := Dbl.finite 0, Pclass := Dbl.finite 3, Name := "Brown, Miss. Ann", Sex := "female",
     Age := some (Dbl.finite 29), SibSp := Dbl.finite 1, Parch := Dbl.finite 0,
     Fare := Dbl.round (71 / 10), Embarked := some "S",
     Title := none, FamilySize := none, IsAlone := none }]

/-- A record of doubles with the given Age, the other columns fixed. -/
def recordWithAge (age : Option Dbl) : Passenger Dbl :=
  { Survived := Dbl.finite 0, Pclass := Dbl.finite 3, Name := "Lee, Mr. Sam", Sex := "male",
    Age := age, SibSp := Dbl.finite 0, Parch := Dbl.finite 0, Fare := Dbl.finite 8,
    Embarked := some "S", Title := none, FamilySize := none, IsAlone := none }

/-- Four records with the Ages `2 ^ 1023`, `1.5 * 2 ^ 1023`, missing,
missing. -/
def overflowDataset : List (Passenger Dbl) :=
  [recordWithAge (some (Dbl.finite (pow2 1023))),
   recordWithAge (some (Dbl.finite (3 * pow2 1022))),
   recordWithAge none,
   recordWithAge none]

/-! ## Auxiliary lemmas -/

theorem insertionSort_eq_of_sorted_perm (values s : List K)
    (hs : s.Sorted (· ≤ ·)) (hp : s.Perm values) :
    values.insertionSort (· ≤ ·) = s :=
  List.eq_of_perm_of_sorted ((List.perm_insertionSort _ values).trans hp.symm)
    (List.sorted_insertionSort _ values) hs

theorem normalizeTitle_mem (title : Option String) :
    normalizeTitle title ∈ [some "Mr", some "Miss", some "Mrs", some "Master", some "Other"] := by
  unfold normalizeTitle
  cases title with
  | none => simp
  | some t =>
    show (if t ∈ commonTitles then some t else some "Other") ∈ _
    by_cases h : t ∈ commonTitles
    · rw [if_pos h]
      simp only [commonTitles, List.mem_cons, List.mem_singleton, List.not_mem_nil, or_false] at h
      rcases h with h | h | h | h <;> simp [h]
    · rw [if_neg h]; simp

theorem embarkedFalsy_fill (e : Option String) :
    embarkedFalsy (if embarkedFalsy e then some "S" else e) = false := by
  by_cases h : embarkedFalsy e = true
  · rw [if_pos h]; decide
  · rw [if_neg h]; simpa using h

/-- A record that the callback has produced is left as it is by the callback,
whatever the array holds then. -/
theorem processPassenger_fixed (d₁ d₂ : List (Passenger K)) (p : Passenger K) :
    processPassenger d₂ (processPassenger d₁ p) = processPassenger d₁ p := by
  have he := embarkedFalsy_fill p.Embarked
  cases hA : p.Age <;> simp [processPassenger, hA, he]

/-- The loop appends, to the records already rewritten, one record per record
still to visit, each the callback's result on it for some array contents. -/
theorem preprocessLoop_spec (todo : List (Passenger K)) :
    ∀ done : List (Passenger K), ∃ out : List (Passenger K),
      preprocessLoop done todo = done ++ out ∧
      List.Forall₂ (fun p q => ∃ live : List (Passenger K), q = processPassenger live p) todo out := by
  induction todo with
  | nil => intro done; exact ⟨[], by simp [preprocessLoop], List.Forall₂.nil⟩
  | cons p rest ih =>
    intro done
    obtain ⟨out, hout, hrel⟩ := ih (done ++ [processPassenger (done ++ p :: rest) p])
    refine ⟨processPassenger (done ++ p :: rest) p :: out, ?_, List.Forall₂.cons ⟨_, rfl⟩ hrel⟩
    simp [preprocessLoop, hout]

theorem preprocessData_spec (dataset : List (Passenger K)) :
    List.Forall₂ (fun p q => ∃ live : List (Passenger K), q = processPassenger live p)
      dataset (preprocessData dataset) := by
  obtain ⟨out, hout, hrel⟩ := preprocessLoop_spec dataset []
  have : preprocessData dataset = out := by simpa [preprocessData] using hout
  rw [this]; exact hrel

theorem preprocessData_mem (dataset : List (Passenger K)) (q : Passenger K)
    (hq : q ∈ preprocessData dataset) :
    ∃ p ∈ dataset, ∃ live : List (Passenger K), q = processPassenger live p := by
  have h := preprocessData_spec dataset
  generalize preprocessData dataset = out at h hq
  induction h with
  | nil => simp at hq
  | cons hab _ ih =>
    rcases List.mem_cons.1 hq with rfl | hq
    · exact ⟨_, List.mem_cons_self _ _, hab⟩
    · obtain ⟨p, hp, hl⟩ := ih hq
      exact ⟨p, List.mem_cons_of_mem _ hp, hl⟩

theorem preprocessLoop_fixed (todo : List (Passenger K)) :
    ∀ done : List (Passenger K),
      (∀ q ∈ todo, ∀ live : List (Passenger K), processPassenger live q = q) →
      preprocessLoop done todo = done ++ todo := by
  induction todo with
  | nil => intro done _; simp [preprocessLoop]
  | cons p rest ih =>
    intro done h
    have hp := h p (List.mem_cons_self _ _) (done ++ p :: rest)
    simp only [preprocessLoop, hp]
    rw [ih _ (fun q hq => h q (List.mem_cons_of_mem _ hq))]
    simp


theorem distinct_foldl_spec {α : Type} [DecidableEq α] (xs : List α) :
    ∀ seen : List α, seen.Nodup →
      (xs.foldl (fun seen x => if x ∈ seen then seen else seen ++ [x]) seen).Nodup ∧
      ∀ a, a ∈ xs.foldl (fun seen x => if x ∈ seen then seen else seen ++ [x]) seen ↔
        a ∈ seen ∨ a ∈ xs := by
  induction xs with
  | nil => intro seen h; simp [h]
  | cons x xs ih =>
    intro seen h
    simp only [List.foldl_cons]
    by_cases hx : x ∈ seen
    · rw [if_pos hx]
      refine ⟨(ih seen h).1, fun a => ?_⟩
      rw [(ih seen h).2 a]
      constructor
      · rintro (h1 | h1)
        · exact Or.inl h1
        · exact Or.inr (List.mem_cons_of_mem _ h1)
      · rintro (h1 | h1)
        · exact Or.inl h1
        · rcases List.mem_cons.1 h1 with rfl | h2
          · exact Or.inl hx
          · exact Or.inr h2
    · rw [if_neg hx]
      have hn : (seen ++ [x]).Nodup := by
        rw [List.nodup_append]
        refine ⟨h, List.nodup_singleton x, ?_⟩
        intro a ha hb
        rw [List.mem_singleton] at hb
        exact hx (hb ▸ ha)
      refine ⟨(ih _ hn).1, fun a => ?_⟩
      rw [(ih _ hn).2 a]
      simp only [List.mem_append, List.mem_singleton, List.mem_cons]
      tauto

theorem distinct_nodup {α : Type} [DecidableEq α] (xs : List α) : (distinct xs).Nodup :=
  (distinct_foldl_spec xs [] List.nodup_nil).1

theorem mem_distinct {α : Type} [DecidableEq α] (xs : List α) (a : α) :
    a ∈ distinct xs ↔ a ∈ xs := by
  have h := (distinct_foldl_spec xs [] List.nodup_nil).2 a
  simpa [distinct] using h

theorem distinct_perm_dedup {α : Type} [DecidableEq α] (xs : List α) :
    (distinct xs).Perm xs.dedup :=
  (List.perm_ext_iff_of_nodup (distinct_nodup xs) (List.nodup_dedup xs)).2
    (fun a => by rw [mem_distinct, List.mem_dedup])

theorem length_filter_eq_count {α β : Type} [DecidableEq β] (g : α → β) (c : β) (l : List α) :
    (l.filter (fun p => g p = c)).length = (l.map g).count c := by
  induction l with
  | nil => rfl
  | cons a l ih =>
    by_cases h : g a = c
    · simp [List.filter_cons, h, ih]
    · simp [List.filter_cons, h, ih, List.count_cons]

theorem categoryStats_total_sum (dataset : List (Passenger K)) (f : String) :
    ((categoryStats dataset f).map (fun e => e.2.total)).sum = dataset.length := by
  have hmap : (categoryStats dataset f).map (fun e => e.2.total) =
      (distinct (dataset.map (fun p => p.get f))).map
        (fun c => (dataset.map (fun p => p.get f)).count c) := by
    unfold categoryStats
    rw [List.map_map]
    apply List.map_congr_left
    intro c _
    exact length_filter_eq_count (fun p => p.get f) c dataset
  rw [hmap, ((distinct_perm_dedup _).map _).sum_eq, List.sum_map_count_dedup_eq_length,
    List.length_map]

theorem foldl_add_eq_sum (xs : List K) : ∀ a : K, xs.foldl (· + ·) a = a + xs.sum := by
  induction xs with
  | nil => intro a; simp
  | cons x xs ih => intro a; simp [ih, add_assoc]

theorem mean_of_constant (xs : List K) (c : K) (hne : xs ≠ []) (h : ∀ a ∈ xs, a = c) :
    mean xs = c := by
  have hlen : (xs.length : K) ≠ 0 := by
    have : xs.length ≠ 0 := fun h0 => hne (List.length_eq_zero.1 h0)
    exact_mod_cast this
  unfold mean
  rw [foldl_add_eq_sum, zero_add, List.sum_eq_card_nsmul xs c h, nsmul_eq_mul]
  field_simp

/-- The loop's accumulators are the three sums over the paired series. -/
theorem correlationSums_eq (x y : List K) :
    correlationSums x y =
      (((List.zip x y).map (fun xy => (xy.1 - mean x) * (xy.2 - mean y))).sum,
        ((List.zip x y).map (fun xy => (xy.1 - mean x) ^ 2)).sum,
        ((List.zip x y).map (fun xy => (xy.2 - mean y) ^ 2)).sum) := by
  have key : ∀ (l : List (K × K)) (a b c : K),
      l.foldl (fun (acc : K × K × K) (xy : K × K) =>
        (acc.1 + (xy.1 - mean x) * (xy.2 - mean y), acc.2.1 + (xy.1 - mean x) ^ 2,
          acc.2.2 + (xy.2 - mean y) ^ 2)) (a, b, c) =
      (a + (l.map (fun xy => (xy.1 - mean x) * (xy.2 - mean y))).sum,
        b + (l.map (fun xy => (xy.1 - mean x) ^ 2)).sum,
        c + (l.map (fun xy => (xy.2 - mean y) ^ 2)).sum) := by
    intro l
    induction l with
    | nil => intro a b c; simp
    | cons p l ih => intro a b c; simp [ih, add_assoc]
  have h := key (List.zip x y) 0 0 0
  simp only [zero_add] at h
  exact h

theorem sum_map_eq_zero_of_forall {α : Type} (l : List α) (g : α → K)
    (h : ∀ a ∈ l, g a = 0) : (l.map g).sum = 0 := by
  induction l with
  | nil => rfl
  | cons a l ih =>
    rw [List.map_cons, List.sum_cons, h a (List.mem_cons_self _ _),
      ih (fun b hb => h b (List.mem_cons_of_mem _ hb)), add_zero]

theorem forall_eq_zero_of_sum_sq_eq_zero {α : Type} (l : List α) (g : α → K)
    (h : (l.map (fun a => g a ^ 2)).sum = 0) : ∀ a ∈ l, g a = 0 := by
  induction l with
  | nil => intro a ha; simp at ha
  | cons b l ih =>
    rw [List.map_cons, List.sum_cons] at h
    have h1 : 0 ≤ g b ^ 2 := sq_nonneg _
    have h2 : 0 ≤ (l.map (fun a => g a ^ 2)).sum :=
      List.sum_nonneg (by
        intro t ht
        obtain ⟨a, _, rfl⟩ := List.mem_map.1 ht
        exact sq_nonneg _)
    have h3 : g b ^ 2 = 0 := by linarith
    have h4 : (l.map (fun a => g a ^ 2)).sum = 0 := by linarith
    intro a ha
    rcases List.mem_cons.1 ha with rfl | ha
    · exact pow_eq_zero_iff (two_ne_zero) |>.1 h3
    · exact ih h4 a ha

theorem correlationSums_dx_of_constant (x y : List K) (c : K) (h : ∀ a ∈ x, a = c) :
    (correlationSums x y).2.1 = 0 := by
  rw [correlationSums_eq]
  show ((List.zip x y).map (fun xy => (xy.1 - mean x) ^ 2)).sum = 0
  by_cases hne : x = []
  · subst hne; simp
  · apply sum_map_eq_zero_of_forall
    intro xy hxy
    have hm : xy.1 ∈ x := (List.of_mem_zip (a := xy.1) (b := xy.2) hxy).1
    rw [mean_of_constant x c hne h, h _ hm, sub_self]
    simp

theorem correlationSums_dy_of_constant (x y : List K) (c : K) (h : ∀ b ∈ y, b = c) :
    (correlationSums x y).2.2 = 0 := by
  rw [correlationSums_eq]
  show ((List.zip x y).map (fun xy => (xy.2 - mean y) ^ 2)).sum = 0
  by_cases hne : y = []
  · subst hne; simp
  · apply sum_map_eq_zero_of_forall
    intro xy hxy
    have hm : xy.2 ∈ y := (List.of_mem_zip (a := xy.1) (b := xy.2) hxy).2
    rw [mean_of_constant y c hne h, h _ hm, sub_self]
    simp

theorem pearson_self (sqrt : K → K) (hsqrt : ∀ a : K, 0 ≤ a → sqrt (a * a) = a)
    (x : List K) (hx : ∃ a ∈ x, ∃ b ∈ x, a ≠ b) : pearson sqrt x x = 1 := by
  have hzip : List.zip x x = x.map (fun a => (a, a)) := by
    simpa using List.zip_map' (fun a : K => a) (fun a : K => a) x
  have hs : correlationSums x x =
      ((x.map (fun a => (a - mean x) ^ 2)).sum, (x.map (fun a => (a - mean x) ^ 2)).sum,
        (x.map (fun a => (a - mean x) ^ 2)).sum) := by
    rw [correlationSums_eq, hzip]
    simp only [List.map_map, Function.comp_def, sq]
  have hnn : 0 ≤ (x.map (fun a => (a - mean x) ^ 2)).sum :=
    List.sum_nonneg (by
      intro t ht
      obtain ⟨a, _, rfl⟩ := List.mem_map.1 ht
      exact sq_nonneg _)
  have hne : (x.map (fun a => (a - mean x) ^ 2)).sum ≠ 0 := by
    intro h0
    have hall := forall_eq_zero_of_sum_sq_eq_zero x (fun a => a - mean x) h0
    obtain ⟨a, ha, b, hb, hab⟩ := hx
    exact hab ((sub_eq_zero.1 (hall a ha)).trans (sub_eq_zero.1 (hall b hb)).symm)
  unfold pearson
  simp only [hs]
  rw [if_pos ⟨hne, hne⟩, hsqrt _ hnn, div_self hne]

theorem foldl_max_spec (xs : List K) :
    ∀ x : K, xs.foldl max x ∈ x :: xs ∧ ∀ y ∈ x :: xs, y ≤ xs.foldl max x := by
  induction xs with
  | nil => intro x; simp
  | cons a xs ih =>
    intro x
    obtain ⟨hmem, hle⟩ := ih (max x a)
    rw [List.foldl_cons]
    constructor
    · rcases List.mem_cons.1 hmem with h | h
      · rw [h]
        rcases max_choice x a with hc | hc
        · rw [hc]; exact List.mem_cons_self _ _
        · rw [hc]; exact List.mem_cons_of_mem _ (List.mem_cons_self _ _)
      · exact List.mem_cons_of_mem _ (List.mem_cons_of_mem _ h)
    · intro y hy
      rcases List.mem_cons.1 hy with rfl | hy
      · exact le_trans (le_max_left _ _) (hle _ (List.mem_cons_self _ _))
      · rcases List.mem_cons.1 hy with rfl | hy
        · exact le_trans (le_max_right _ _) (hle _ (List.mem_cons_self _ _))
        · exact hle _ (List.mem_cons_of_mem _ hy)

theorem foldl_min_spec (xs : List K) :
    ∀ x : K, xs.foldl min x ∈ x :: xs ∧ ∀ y ∈ x :: xs, xs.foldl min x ≤ y := by
  induction xs with
  | nil => intro x; simp
  | cons a xs ih =>
    intro x
    obtain ⟨hmem, hle⟩ := ih (min x a)
    rw [List.foldl_cons]
    constructor
    · rcases List.mem_cons.1 hmem with h | h
      · rw [h]
        rcases min_choice x a with hc | hc
        · rw [hc]; exact List.mem_cons_self _ _
        · rw [hc]; exact List.mem_cons_of_mem _ (List.mem_cons_self _ _)
      · exact List.mem_cons_of_mem _ (List.mem_cons_of_mem _ h)
    · intro y hy
      rcases List.mem_cons.1 hy with rfl | hy
      · exact le_trans (hle _ (List.mem_cons_self _ _)) (min_le_left _ _)
      · rcases List.mem_cons.1 hy with rfl | hy
        · exact le_trans (hle _ (List.mem_cons_self _ _)) (min_le_right _ _)
        · exact hle _ (List.mem_cons_of_mem _ hy)

/-- `Math.max` returns the greatest element of a list that has one. -/
theorem mathMax_of_greatest (l : List K) (m : K) (hm : m ∈ l) (hle : ∀ x ∈ l, x ≤ m) :
    mathMax l = some m := by
  cases l with
  | nil => simp at hm
  | cons x xs =>
    obtain ⟨h1, h2⟩ := foldl_max_spec xs x
    show some (xs.foldl max x) = some m
    rw [le_antisymm (hle _ h1) (h2 _ hm)]

/-- `Math.min` returns the least element of a list that has one. -/
theorem mathMin_of_least (l : List K) (m : K) (hm : m ∈ l) (hle : ∀ x ∈ l, m ≤ x) :
    mathMin l = some m := by
  cases l with
  | nil => simp at hm
  | cons x xs =>
    obtain ⟨h1, h2⟩ := foldl_min_spec xs x
    show some (xs.foldl min x) = some m
    rw [le_antisymm (h2 _ hm) (hle _ h1)]

/-- The decision rule, once the `Sex` and `Pclass` entries have been read: the
class candidate replaces the gender candidate exactly when its impact is
strictly greater than the gender impact. -/
theorem determineMostImportantFactor_eq
    (catResults : List (String × List (Cell K × CategoryStat K)))
    (numResults : List (String × List (Cell K) × List (Cell K)))
    (sex pclass : List (Cell K × CategoryStat K)) (male female : CategoryStat K) (hi lo : K)
    (hsex : lookupKey "Sex" catResults = some sex)
    (hmale : lookupKey (Cell.str "male") sex = some male)
    (hfemale : lookupKey (Cell.str "female") sex = some female)
    (hpclass : lookupKey "Pclass" catResults = some pclass)
    (hhi : mathMax (pclass.map (fun e => e.2.rate)) = some hi)
    (hlo : mathMin (pclass.map (fun e => e.2.rate)) = some lo) :
    determineMostImportantFactor catResults numResults =
      if hi - lo > |male.rate - female.rate| then
        match lookupKey (Cell.num 1) pclass, lookupKey (Cell.num 3) pclass with
        | some first, some third =>
          some { factor := "Passenger Class",
                 details := [("1st class", first.rate), ("3rd class", third.rate)] }
        | _, _ => none
      else if |male.rate - female.rate| > 0 then
        some { factor := "Gender", details := [("Female", female.rate), ("Male", male.rate)] }
      else some { factor := "", details := [] } := by
  unfold determineMostImportantFactor
  simp only [hsex, hmale, hfemale, hpclass, hhi, hlo]
  by_cases hg : |male.rate - female.rate| > 0
  · simp only [hg, if_true]
  · have h0 : |male.rate - female.rate| = 0 := le_antisymm (not_lt.1 hg) (abs_nonneg _)
    simp only [h0, lt_irrefl, if_false, gt_iff_lt]

/-- What a finding can be when `determineMostImportantFactor` returns one: the
class finding built from the entries of the classes 1 and 3, the gender
finding, or the empty finding. -/
theorem determineMostImportantFactor_cases
    (catResults : List (String × List (Cell K × CategoryStat K)))
    (numResults : List (String × List (Cell K) × List (Cell K)))
    (finding : KeyFinding K)
    (h : determineMostImportantFactor catResults numResults = some finding) :
    ∃ sex male female pclass,
      lookupKey "Sex" catResults = some sex ∧
      lookupKey (Cell.str "male") sex = some male ∧
      lookupKey (Cell.str "female") sex = some female ∧
      lookupKey "Pclass" catResults = some pclass ∧
      ((∃ first third, lookupKey (Cell.num 1) pclass = some first ∧
          lookupKey (Cell.num 3) pclass = some third ∧
          finding = { factor := "Passenger Class",
                      details := [("1st class", first.rate), ("3rd class", third.rate)] }) ∨
        finding = { factor := "Gender",
                    details := [("Female", female.rate), ("Male", male.rate)] } ∨
        finding = { factor := "", details := [] }) := by
  unfold determineMostImportantFactor at h
  cases hsex : lookupKey "Sex" catResults with
  | none => simp [hsex] at h
  | some sex =>
    cases hmale : lookupKey (Cell.str "male") sex with
    | none => simp [hsex, hmale] at h
    | some male =>
      cases hfemale : lookupKey (Cell.str "female") sex with
      | none => simp [hsex, hmale, hfemale] at h
      | some female =>
        cases hpclass : lookupKey "Pclass" catResults with
        | none => simp [hsex, hmale, hfemale, hpclass] at h
        | some pclass =>
          refine ⟨sex, male, female, pclass, rfl, hmale, hfemale, rfl, ?_⟩
          simp only [hsex, hmale, hfemale, hpclass] at h
          have hfin : ∀ g : KeyFinding K,
              (g = { factor := "Gender",
                     details := [("Female", female.rate), ("Male", male.rate)] } ∨
                g = { factor := "", details := [] }) →
              ((match mathMax (pclass.map (fun e => e.2.rate)),
                  mathMin (pclass.map (fun e => e.2.rate)) with
                | some hi, some lo =>
                  if hi - lo > |male.rate - female.rate| then
                    match lookupKey (Cell.num 1) pclass, lookupKey (Cell.num 3) pclass with
                    | some first, some third =>
                      some { factor := "Passenger Class",
                             details := [("1st class", first.rate), ("3rd class", third.rate)] }
                    | _, _ => none
                  else some g
                | _, _ => some g) = some finding) →
              ((∃ first third, lookupKey (Cell.num 1) pclass = some first ∧
                  lookupKey (Cell.num 3) pclass = some third ∧
                  finding = { factor := "Passenger Class",
                              details := [("1st class", first.rate), ("3rd class", third.rate)] }) ∨
                finding = { factor := "Gender",
                            details := [("Female", female.rate), ("Male", male.rate)] } ∨
                finding = { factor := "", details := [] }) := by
            intro g hg hres
            have hkeep : some g = some finding →
                ((∃ first third, lookupKey (Cell.num 1) pclass = some first ∧
                    lookupKey (Cell.num 3) pclass = some third ∧
                    finding = { factor := "Passenger Class",
                                details := [("1st class", first.rate),
                                  ("3rd class", third.rate)] }) ∨
                  finding = { factor := "Gender",
                              details := [("Female", female.rate), ("Male", male.rate)] } ∨
                  finding = { factor := "", details := [] }) := by
              intro hsome
              rw [← Option.some.inj hsome]
              exact Or.inr hg
            cases hhi : mathMax (pclass.map (fun e => e.2.rate)) with
            | none => simp only [hhi] at hres; exact hkeep hres
            | some hi =>
              cases hlo : mathMin (pclass.map (fun e => e.2.rate)) with
              | none => simp only [hhi, hlo] at hres; exact hkeep hres
              | some lo =>
                simp only [hhi, hlo] at hres
                split at hres
                · cases hfirst : lookupKey (Cell.num 1) pclass with
                  | none => simp [hfirst] at hres
                  | some first =>
                    cases hthird : lookupKey (Cell.num 3) pclass with
                    | none => simp [hfirst, hthird] at hres
                    | some third =>
                      simp only [hfirst, hthird] at hres
                      exact Or.inl ⟨first, third, rfl, rfl, (Option.some.inj hres).symm⟩
                · exact hkeep hres
          by_cases hg : |male.rate - female.rate| > 0
          · simp only [if_pos hg] at h
            exact hfin _ (Or.inl rfl) h
          · have h0 : |male.rate - female.rate| = 0 := le_antisymm (not_lt.1 hg) (abs_nonneg _)
            simp only [if_neg hg] at h
            rw [← h0] at h
            exact hfin _ (Or.inr rfl) h

/-- On any ascending arrangement of the values, the reference median is the
value `calculateMedian` returns. -/
theorem referenceMedian_of_sorted_perm (values s : List K)
    (hs : s.Sorted (· ≤ ·)) (hp : s.Perm values) :
    referenceMedian s = some (calculateMedian values) := by
  have hsort := insertionSort_eq_of_sorted_perm values s hs hp
  have hlen : s.length = values.length := hp.length_eq
  unfold referenceMedian calculateMedian
  simp only [hsort, hlen]
  by_cases h0 : values.length = 0
  · simp [h0]
  · have h1 : values.length / 2 < s.length := by omega
    rcases Nat.mod_two_eq_zero_or_one values.length with he | ho
    · have h2 : values.length / 2 - 1 < s.length := by omega
      simp [h0, he, List.getD_eq_getElem?_getD, List.getElem?_eq_getElem h1,
        List.getElem?_eq_getElem h2]
    · simp [h0, ho, List.getD_eq_getElem?_getD, List.getElem?_eq_getElem h1]

theorem sorted_getElem_le (s : List K) (hs : s.Sorted (· ≤ ·)) (i j : Nat) (hij : i ≤ j)
    (hj : j < s.length) : s[i] ≤ s[j] := by
  rcases Nat.lt_or_eq_of_le hij with h | h
  · exact (List.pairwise_iff_getElem.1 hs) i j (by omega) hj h
  · subst h; exact le_refl _

/-- In a sorted list the median splits the list: the first half of the
elements is below it and the rest above it. -/
theorem median_splits_sorted (s : List K) (m : K) (hs : s.Sorted (· ≤ ·))
    (hm : referenceMedian s = some m) :
    (∀ x ∈ s.take (s.length / 2), x ≤ m) ∧ (∀ y ∈ s.drop (s.length / 2), m ≤ y) := by
  unfold referenceMedian at hm
  by_cases h0 : s.length = 0
  · have : s = [] := List.length_eq_zero.1 h0
    subst this
    simp
  · have hh : s.length / 2 < s.length := by omega
    rw [if_neg h0] at hm
    by_cases hodd : s.length % 2 = 1
    · rw [if_pos hodd, List.getElem?_eq_getElem hh] at hm
      have hm' : s[s.length / 2] = m := Option.some.inj hm
      constructor
      · intro x hx
        obtain ⟨i, hi, rfl⟩ := List.mem_take_iff_getElem.1 hx
        rw [← hm']
        exact sorted_getElem_le s hs i _ (by omega) hh
      · intro y hy
        obtain ⟨j, hj, rfl⟩ := List.mem_drop_iff_getElem.1 hy
        rw [← hm']
        exact sorted_getElem_le s hs _ _ (by omega) (by omega)
    · have hh1 : s.length / 2 - 1 < s.length := by omega
      rw [if_neg hodd, List.getElem?_eq_getElem hh, List.getElem?_eq_getElem hh1] at hm
      have hm' : (s[s.length / 2 - 1] + s[s.length / 2]) / 2 = m := Option.some.inj hm
      have hab : s[s.length / 2 - 1] ≤ s[s.length / 2] :=
        sorted_getElem_le s hs _ _ (by omega) hh
      have h1 : s[s.length / 2 - 1] ≤ m := by rw [← hm']; linarith
      have h2 : m ≤ s[s.length / 2] := by rw [← hm']; linarith
      constructor
      · intro x hx
        obtain ⟨i, hi, rfl⟩ := List.mem_take_iff_getElem.1 hx
        exact le_trans (sorted_getElem_le s hs i _ (by omega) hh1) h1
      · intro y hy
        obtain ⟨j, hj, rfl⟩ := List.mem_drop_iff_getElem.1 hy
        exact le_trans h2 (sorted_getElem_le s hs _ _ (by omega) (by omega))

/-- Adding the median of a list to the list does not change the median. -/
theorem calculateMedian_cons_median (l : List K) :
    calculateMedian (calculateMedian l :: l) = calculateMedian l := by
  have hs : (l.insertionSort (· ≤ ·)).Sorted (· ≤ ·) := List.sorted_insertionSort _ l
  have hp : (l.insertionSort (· ≤ ·)).Perm l := List.perm_insertionSort _ l
  have hm := referenceMedian_of_sorted_perm l _ hs hp
  generalize l.insertionSort (· ≤ ·) = s at hs hp hm
  generalize calculateMedian l = m at hm ⊢
  obtain ⟨hlow, hhigh⟩ := median_splits_sorted s m hs hm
  have htS : (s.take (s.length / 2) ++ m :: s.drop (s.length / 2)).Sorted (· ≤ ·) := by
    unfold List.Sorted
    rw [List.pairwise_append]
    refine ⟨hs.sublist (List.take_sublist _ _), ?_, ?_⟩
    · rw [List.pairwise_cons]
      exact ⟨hhigh, hs.sublist (List.drop_sublist _ _)⟩
    · intro a ha b hb
      rcases List.mem_cons.1 hb with rfl | hb
      · exact hlow a ha
      · exact le_trans (hlow a ha) (hhigh b hb)
  have htP : (s.take (s.length / 2) ++ m :: s.drop (s.length / 2)).Perm (m :: l) := by
    refine List.perm_middle.trans (List.Perm.cons m ?_)
    rw [List.take_append_drop]
    exact hp
  have ht := referenceMedian_of_sorted_perm (m :: l) _ htS htP
  have hlen : (s.take (s.length / 2) ++ m :: s.drop (s.length / 2)).length = s.length + 1 := by
    simp only [List.length_append, List.length_take, List.length_cons, List.length_drop]
    omega
  have htake : (s.take (s.length / 2)).length = s.length / 2 := by
    rw [List.length_take]; omega
  have hidx : (s.take (s.length / 2) ++ m :: s.drop (s.length / 2))[s.length / 2]? = some m := by
    rw [List.getElem?_append_right (by omega), htake, Nat.sub_self]
    exact List.getElem?_cons_zero
  have hgoal : referenceMedian (s.take (s.length / 2) ++ m :: s.drop (s.length / 2)) =
      some m := by
    unfold referenceMedian
    rw [hlen, if_neg (by omega)]
    by_cases hodd : s.length % 2 = 1
    · have h1 : ¬ (s.length + 1) % 2 = 1 := by omega
      have h2 : (s.length + 1) / 2 = s.length / 2 + 1 := by omega
      have hh : s.length / 2 < s.length := by omega
      have hidx1 : (s.take (s.length / 2) ++ m :: s.drop (s.length / 2))[s.length / 2 + 1]? =
          some m := by
        rw [List.getElem?_append_right (by omega), htake, Nat.add_sub_cancel_left,
          List.getElem?_cons_succ, List.getElem?_drop, Nat.add_zero]
        unfold referenceMedian at hm
        rw [if_neg (by omega), if_pos hodd] at hm
        exact hm
      rw [if_neg h1, h2, Nat.add_sub_cancel, hidx, hidx1]
      simp
    · have h1 : (s.length + 1) % 2 = 1 := by omega
      have h2 : (s.length + 1) / 2 = s.length / 2 := by omega
      rw [if_pos h1, h2, hidx]
  rw [hgoal] at ht
  exact (Option.some.inj ht).symm

/-- Adding copies of the median of a list to the list does not change the
median. -/
theorem calculateMedian_replicate_median (l : List K) (k : Nat) :
    calculateMedian (List.replicate k (calculateMedian l) ++ l) = calculateMedian l := by
  induction k with
  | zero => rfl
  | succ k ih =>
    have h := calculateMedian_cons_median (List.replicate k (calculateMedian l) ++ l)
    rw [ih] at h
    rw [List.replicate_succ, List.cons_append]
    exact h

theorem calculateMedian_eq_of_perm (l₁ l₂ : List K) (h : l₁.Perm l₂) :
    calculateMedian l₁ = calculateMedian l₂ := by
  have hs : l₁.insertionSort (· ≤ ·) = l₂.insertionSort (· ≤ ·) :=
    insertionSort_eq_of_sorted_perm l₁ _ (List.sorted_insertionSort _ l₂)
      ((List.perm_insertionSort _ l₂).trans h.symm)
  unfold calculateMedian
  simp only [hs, h.length_eq]

/-- The Age the callback writes. -/
theorem processPassenger_age (dataset : List (Passenger K)) (p : Passenger K) :
    (processPassenger dataset p).Age =
      match p.Age with
      | none => some (calculateMedian (dataset.map (fun r => r.Age)).reduceOption)
      | some a => some a := rfl

/-- After the callback has run with the array `dataset` on some records, their
numeric Ages are the numeric Ages they had, together with one copy of the
median of `dataset` for each Age that was missing. -/
theorem ages_after_processing (dataset : List (Passenger K)) (visited : List (Passenger K)) :
    ∃ k : Nat,
      ((visited.map (processPassenger dataset)).map (fun r => r.Age)).reduceOption.Perm
        (List.replicate k (calculateMedian (dataset.map (fun r => r.Age)).reduceOption) ++
          (visited.map (fun r => r.Age)).reduceOption) := by
  induction visited with
  | nil => exact ⟨0, by simp⟩
  | cons q rest ih =>
    obtain ⟨k, hk⟩ := ih
    cases hA : q.Age with
    | none =>
      refine ⟨k + 1, ?_⟩
      simp only [List.map_cons, processPassenger_age, hA, List.reduceOption_cons_of_some,
        List.reduceOption_cons_of_none, List.replicate_succ, List.cons_append]
      exact List.Perm.cons _ hk
    | some a =>
      refine ⟨k, ?_⟩
      simp only [List.map_cons, processPassenger_age, hA, List.reduceOption_cons_of_some]
      exact (List.Perm.cons a hk).trans List.perm_middle.symm

/-- The callback computes the same record on the live, partly rewritten array
as on the array before any record was rewritten. -/
theorem processPassenger_live (visited rest : List (Passenger K)) (p : Passenger K) :
    processPassenger
        (visited.map (processPassenger (visited ++ p :: rest)) ++ p :: rest) p =
      processPassenger (visited ++ p :: rest) p := by
  have hcongr : ∀ d₁ d₂ : List (Passenger K),
      calculateMedian (d₁.map (fun r => r.Age)).reduceOption =
        calculateMedian (d₂.map (fun r => r.Age)).reduceOption →
      processPassenger d₁ p = processPassenger d₂ p := by
    intro d₁ d₂ h
    unfold processPassenger
    rw [h]
  apply hcongr
  · have hmed : calculateMedian
          ((visited.map (processPassenger (visited ++ p :: rest)) ++ p :: rest).map
            (fun r => r.Age)).reduceOption =
        calculateMedian (((visited ++ p :: rest).map (fun r => r.Age)).reduceOption) := by
      obtain ⟨k, hk⟩ := ages_after_processing (visited ++ p :: rest) visited
      generalize hm0 :
        calculateMedian ((visited ++ p :: rest).map (fun r => r.Age)).reduceOption = m0 at hk
      have e1 : ((visited.map (processPassenger (visited ++ p :: rest)) ++ p :: rest).map
            (fun r => r.Age)).reduceOption =
          ((visited.map (processPassenger (visited ++ p :: rest))).map
            (fun r => r.Age)).reduceOption ++ ((p :: rest).map (fun r => r.Age)).reduceOption := by
        rw [List.map_append, List.reduceOption_append]
      have e2 : ((visited ++ p :: rest).map (fun r => r.Age)).reduceOption =
          (visited.map (fun r => r.Age)).reduceOption ++
            ((p :: rest).map (fun r => r.Age)).reduceOption := by
        rw [List.map_append, List.reduceOption_append]
      have h1 : ((visited.map (processPassenger (visited ++ p :: rest)) ++ p :: rest).map
            (fun r => r.Age)).reduceOption.Perm
          (List.replicate k m0 ++
            ((visited ++ p :: rest).map (fun r => r.Age)).reduceOption) := by
        rw [e1, e2, ← List.append_assoc]
        exact hk.append_right _
      rw [calculateMedian_eq_of_perm _ _ h1, ← hm0]
      exact calculateMedian_replicate_median _ k
    exact hmed

theorem preprocessLoop_eq_map (todo : List (Passenger K)) :
    ∀ visited : List (Passenger K),
      preprocessLoop (visited.map (processPassenger (visited ++ todo))) todo =
        (visited ++ todo).map (processPassenger (visited ++ todo)) := by
  induction todo with
  | nil => intro visited; simp [preprocessLoop]
  | cons p rest ih =>
    intro visited
    have h := ih (visited ++ [p])
    simp only [List.append_assoc, List.singleton_append, List.map_append, List.map_cons,
      List.map_nil] at h
    rw [preprocessLoop, processPassenger_live, h]
    simp

/-- The loop of `preprocessData` gives every record what the callback gives it
on the array as it was before the loop. -/
theorem preprocessData_eq_map (dataset : List (Passenger K)) :
    preprocessData dataset = dataset.map (processPassenger dataset) := by
  have h := preprocessLoop_eq_map dataset []
  simpa [preprocessData] using h

theorem splitGo_free (x y : Char) (a : List Char) :
    ¬ [x, y] <:+: a → ∀ acc : List Char, splitGo [x, y] a 0 acc = [acc.reverse ++ a] := by
  induction a with
  | nil => intro _ acc; simp [splitGo]
  | cons c a ih =>
    intro h acc
    have hpre : ¬ [x, y] <+: c :: a := fun hp => h hp.isInfix
    have hpre' : List.isPrefixOf [x, y] (c :: a) = false := by
      rw [Bool.eq_false_iff]
      intro ht
      exact hpre (List.isPrefixOf_iff_prefix.1 ht)
    have htail : ¬ [x, y] <:+: a := fun hi => h (List.infix_cons_iff.2 (Or.inr hi))
    rw [splitGo, if_neg (by rw [hpre']; simp), ih htail]
    simp

theorem splitGo_first (x y : Char) (hxy : x ≠ y) (a r : List Char) :
    ¬ [x, y] <:+: a → ∀ acc : List Char,
      splitGo [x, y] (a ++ [x, y] ++ r) 0 acc = (acc.reverse ++ a) :: splitGo [x, y] r 0 [] := by
  induction a with
  | nil =>
    intro _ acc
    show splitGo [x, y] (x :: y :: r) 0 acc = _
    rw [splitGo, if_pos (by simp)]
    simp [splitGo]
  | cons c a ih =>
    intro h acc
    have hpre' : List.isPrefixOf [x, y] (c :: (a ++ [x, y] ++ r)) = false := by
      rw [Bool.eq_false_iff]
      intro ht
      have hp := List.isPrefixOf_iff_prefix.1 ht
      rw [List.cons_prefix_cons] at hp
      obtain ⟨hxc, hrest⟩ := hp
      cases a with
      | nil =>
        simp only [List.nil_append, List.cons_append, List.cons_prefix_cons] at hrest
        exact hxy hrest.1.symm
      | cons d a' =>
        simp only [List.cons_append, List.cons_prefix_cons] at hrest
        apply h
        rw [← hxc, ← hrest.1]
        exact (List.prefix_append [x, y] a').isInfix
    have htail : ¬ [x, y] <:+: a := fun hi => h (List.infix_cons_iff.2 (Or.inr hi))
    show splitGo [x, y] (c :: (a ++ [x, y] ++ r)) 0 acc = _
    rw [splitGo, if_neg (by rw [hpre']; simp), ih htail]
    simp

/-- The first piece `split` returns is the part before the first separator,
and the rest of the text is split on. -/
theorem jsSplit_first (x y : Char) (hxy : x ≠ y) (first rest : String)
    (hfree : ¬ containsText first (String.mk [x, y])) :
    jsSplit (first ++ String.mk [x, y] ++ rest) (String.mk [x, y]) =
      first :: jsSplit rest (String.mk [x, y]) := by
  unfold jsSplit
  have h := splitGo_first x y hxy first.data rest.data hfree []
  simp only [String.data_append]
  rw [h]
  simp

/-- On a text free of the separator `split` returns the text as its only
piece. -/
theorem jsSplit_free (x y : Char) (s : String)
    (hfree : ¬ containsText s (String.mk [x, y])) :
    jsSplit s (String.mk [x, y]) = [s] := by
  unfold jsSplit
  rw [splitGo_free x y s.data hfree []]
  simp

/-- The first element of what `split` returns is the first piece of the
text. -/
theorem jsSplit_head (x y : Char) (hxy : x ≠ y) (s piece : String)
    (h : IsFirstPiece (String.mk [x, y]) s piece) :
    ∃ more : List String, jsSplit s (String.mk [x, y]) = piece :: more := by
  obtain ⟨hfree, rfl | ⟨rest, rfl⟩⟩ := h
  · exact ⟨[], jsSplit_free x y _ hfree⟩
  · exact ⟨_, jsSplit_first x y hxy piece rest hfree⟩

/-- Every text has a first piece with respect to a non-empty separator. -/
theorem exists_firstPiece_list (sep : List Char) (hne : sep ≠ []) (l : List Char) :
    ∃ piece : List Char, ¬ sep <:+: piece ∧ (l = piece ∨ ∃ rest, l = piece ++ sep ++ rest) := by
  induction l with
  | nil => exact ⟨[], by simpa using hne, Or.inl rfl⟩
  | cons c l ih =>
    by_cases hpre : sep <+: c :: l
    · obtain ⟨r, hr⟩ := hpre
      exact ⟨[], by simpa using hne, Or.inr ⟨r, by simpa using hr.symm⟩⟩
    · obtain ⟨piece, hfree, hl⟩ := ih
      refine ⟨c :: piece, ?_, ?_⟩
      · intro hin
        rcases List.infix_cons_iff.1 hin with hp | hi
        · apply hpre
          refine hp.trans ?_
          rcases hl with rfl | ⟨rest, rfl⟩
          · exact List.prefix_refl _
          · rw [List.append_assoc]
            exact List.prefix_append (c :: piece) (sep ++ rest)
        · exact hfree hi
      · rcases hl with rfl | ⟨rest, rfl⟩
        · exact Or.inl rfl
        · exact Or.inr ⟨rest, rfl⟩

theorem exists_firstPiece (sep s : String) (hne : sep.data ≠ []) :
    ∃ piece : String, IsFirstPiece sep s piece := by
  obtain ⟨piece, hfree, hl⟩ := exists_firstPiece_list sep.data hne s.data
  refine ⟨String.mk piece, hfree, ?_⟩
  rcases hl with h | ⟨rest, h⟩
  · exact Or.inl (String.ext h)
  · exact Or.inr ⟨String.mk rest, String.ext (by simpa using h)⟩

theorem sum_map_sq_nonneg {α : Type} (l : List α) (g : α → K) :
    0 ≤ (l.map (fun a => g a ^ 2)).sum :=
  List.sum_nonneg (by
    intro t ht
    obtain ⟨a, _, rfl⟩ := List.mem_map.1 ht
    exact sq_nonneg _)

/-- The Cauchy-Schwarz inequality for sums over a list. -/
theorem sum_mul_sq_le_list {α : Type} (l : List α) (f g : α → K) :
    (l.map (fun a => f a * g a)).sum ^ 2 ≤
      (l.map (fun a => f a ^ 2)).sum * (l.map (fun a => g a ^ 2)).sum := by
  induction l with
  | nil => simp
  | cons p l ih =>
    simp only [List.map_cons, List.sum_cons]
    have hX := sum_map_sq_nonneg l f
    have hY := sum_map_sq_nonneg l g
    generalize (l.map (fun a => f a * g a)).sum = A at ih ⊢
    generalize (l.map (fun a => f a ^ 2)).sum = X at ih hX ⊢
    generalize (l.map (fun a => g a ^ 2)).sum = Y at ih hY ⊢
    have hnn : 0 ≤ f p ^ 2 * Y + g p ^ 2 * X :=
      add_nonneg (mul_nonneg (sq_nonneg _) hY) (mul_nonneg (sq_nonneg _) hX)
    have hsq : (2 * (f p * g p) * A) ^ 2 ≤ (f p ^ 2 * Y + g p ^ 2 * X) ^ 2 := by
      have h1 : 0 ≤ (f p * g p) ^ 2 * (X * Y - A ^ 2) :=
        mul_nonneg (sq_nonneg _) (sub_nonneg.2 ih)
      nlinarith [sq_nonneg (f p ^ 2 * Y - g p ^ 2 * X), h1]
    have hcross : 2 * (f p * g p) * A ≤ f p ^ 2 * Y + g p ^ 2 * X :=
      (abs_le_of_sq_le_sq' hsq hnn).2
    nlinarith [hcross, ih]

/-- With a genuine square root every value of `pearson` lies between -1
and 1. -/
theorem pearson_bounds (sqrt : K → K)
    (hsqrt : ∀ a : K, 0 ≤ a → 0 ≤ sqrt a ∧ sqrt a * sqrt a = a) (x y : List K) :
    -1 ≤ pearson sqrt x y ∧ pearson sqrt x y ≤ 1 := by
  unfold pearson
  rw [correlationSums_eq]
  simp only
  by_cases hguard : ((List.zip x y).map (fun xy => (xy.1 - mean x) ^ 2)).sum ≠ 0 ∧
      ((List.zip x y).map (fun xy => (xy.2 - mean y) ^ 2)).sum ≠ 0
  · rw [if_pos hguard]
    have hdx := sum_map_sq_nonneg (List.zip x y) (fun xy => xy.1 - mean x)
    have hdy := sum_map_sq_nonneg (List.zip x y) (fun xy => xy.2 - mean y)
    have hcs := sum_mul_sq_le_list (List.zip x y) (fun xy => xy.1 - mean x)
      (fun xy => xy.2 - mean y)
    simp only at hdx hdy hcs
    generalize ((List.zip x y).map (fun xy => (xy.1 - mean x) * (xy.2 - mean y))).sum = num
      at hcs ⊢
    generalize ((List.zip x y).map (fun xy => (xy.1 - mean x) ^ 2)).sum = dx
      at hcs hdx hguard ⊢
    generalize ((List.zip x y).map (fun xy => (xy.2 - mean y) ^ 2)).sum = dy
      at hcs hdy hguard ⊢
    have hpos : 0 < dx * dy :=
      mul_pos (lt_of_le_of_ne hdx (Ne.symm hguard.1)) (lt_of_le_of_ne hdy (Ne.symm hguard.2))
    obtain ⟨hr0, hrr⟩ := hsqrt (dx * dy) (le_of_lt hpos)
    have hrpos : 0 < sqrt (dx * dy) := by
      rcases eq_or_lt_of_le hr0 with h | h
      · rw [← h, mul_zero] at hrr
        exact absurd hrr (ne_of_lt hpos)
      · exact h
    have hle : num ^ 2 ≤ sqrt (dx * dy) ^ 2 := by
      rw [sq (sqrt (dx * dy)), hrr]
      exact hcs
    obtain ⟨h1, h2⟩ := abs_le_of_sq_le_sq' hle hr0
    constructor
    · rw [le_div_iff₀ hrpos]
      linarith
    · rw [div_le_one hrpos]
      exact h2
  · rw [if_neg hguard]
    constructor <;> norm_num

theorem incrementAt_length (bins : List Nat) : ∀ i : Nat,
    (incrementAt bins i).length = bins.length := by
  induction bins with
  | nil => intro i; rfl
  | cons b bs ih =>
    intro i
    cases i with
    | zero => rfl
    | succ i => simp [incrementAt, ih]

theorem incrementAt_sum (bins : List Nat) : ∀ i : Nat, i < bins.length →
    (incrementAt bins i).sum = bins.sum + 1 := by
  induction bins with
  | nil => intro i hi; simp at hi
  | cons b bs ih =>
    intro i hi
    cases i with
    | zero => simp [incrementAt]; omega
    | succ i =>
      have := ih i (by simpa using hi)
      simp [incrementAt, this]; omega

theorem incrementAt_getD (bins : List Nat) : ∀ i j : Nat, i < bins.length →
    (incrementAt bins i).getD j 0 = bins.getD j 0 + (if j = i then 1 else 0) := by
  induction bins with
  | nil => intro i j hi; simp at hi
  | cons b bs ih =>
    intro i j hi
    cases i with
    | zero =>
      cases j with
      | zero => simp [incrementAt]
      | succ j => simp [incrementAt]
    | succ i =>
      cases j with
      | zero => simp [incrementAt]
      | succ j =>
        have := ih i j (by simpa using hi)
        simpa [incrementAt] using this

section Bins

variable [FloorRing K]

/-- With a positive `step` and a value between `min` and `min + step * binsCount`
the index computed is a bin of the array: the lesser of the floor of the
quotient and `binsCount - 1`. -/
theorem binIndex_in_range (mn step : K) (n : Nat) (v : K) (hn : 0 < n) (hstep : 0 < step)
    (hlo : mn ≤ v) (hhi : v - mn ≤ step * (n : K)) :
    ∃ i : Nat, i < n ∧ binIndex mn step n v = some (Int.ofNat i) ∧
      (i : Int) = min (Int.floor ((v - mn) / step)) ((n : Int) - 1) := by
  have hq0 : 0 ≤ (v - mn) / step := div_nonneg (sub_nonneg.2 hlo) (le_of_lt hstep)
  have hqn : (v - mn) / step ≤ (n : K) := (div_le_iff₀ hstep).2 (by linarith [mul_comm step (n : K)])
  have hf0 : 0 ≤ Int.floor ((v - mn) / step) := Int.floor_nonneg.2 hq0
  have hfn : Int.floor ((v - mn) / step) ≤ (n : Int) := by
    have h1 : ((Int.floor ((v - mn) / step) : Int) : K) ≤ ((n : Int) : K) := by
      refine le_trans (Int.floor_le _) ?_
      exact_mod_cast hqn
    exact_mod_cast h1
  have hn' : (0 : Int) < (n : Int) := by exact_mod_cast hn
  refine ⟨(min (Int.floor ((v - mn) / step)) ((n : Int) - 1)).toNat, ?_, ?_, ?_⟩
  · have : min (Int.floor ((v - mn) / step)) ((n : Int) - 1) < (n : Int) :=
      lt_of_le_of_lt (min_le_right _ _) (by omega)
    omega
  · unfold binIndex
    rw [if_neg (ne_of_gt hstep)]
    have hmin : (if Int.floor ((v - mn) / step) = (n : Int) then (n : Int) - 1
        else Int.floor ((v - mn) / step)) =
        min (Int.floor ((v - mn) / step)) ((n : Int) - 1) := by
      by_cases he : Int.floor ((v - mn) / step) = (n : Int)
      · rw [if_pos he, he, min_eq_right (by omega)]
      · rw [if_neg he, min_eq_left (by omega)]
    simp only [hmin]
    congr 1
    have h0 : 0 ≤ min (Int.floor ((v - mn) / step)) ((n : Int) - 1) :=
      le_min hf0 (by omega)
    exact (Int.toNat_of_nonneg h0).symm
  · have h0 : 0 ≤ min (Int.floor ((v - mn) / step)) ((n : Int) - 1) :=
      le_min hf0 (by omega)
    exact Int.toNat_of_nonneg h0

/-- The loop of `getBins` on values within the range of the bins: the array
keeps its length, every value adds one to the sum, and bin `j` gains the
number of values whose index is `j`. -/
theorem getBins_loop (mn step : K) (n : Nat) (hn : 0 < n) (hstep : 0 < step)
    (vs : List K) :
    (∀ v ∈ vs, mn ≤ v ∧ v - mn ≤ step * (n : K)) →
    ∀ bins : List Nat, bins.length = n →
      (vs.foldl (fun bins v => incrementBin bins (binIndex mn step n v)) bins).length = n ∧
      (vs.foldl (fun bins v => incrementBin bins (binIndex mn step n v)) bins).sum =
        bins.sum + vs.length ∧
      ∀ j : Nat, j < n →
        (vs.foldl (fun bins v => incrementBin bins (binIndex mn step n v)) bins).getD j 0 =
          bins.getD j 0 +
            (vs.filter (fun v =>
              min (Int.floor ((v - mn) / step)) ((n : Int) - 1) = (j : Int))).length := by
  induction vs with
  | nil => intro _ bins hb; simp [hb]
  | cons v vs ih =>
    intro hv bins hb
    obtain ⟨i, hi, hidx, hmin⟩ :=
      binIndex_in_range mn step n v hn hstep (hv v (List.mem_cons_self _ _)).1
        (hv v (List.mem_cons_self _ _)).2
    have hstepEq : incrementBin bins (binIndex mn step n v) = incrementAt bins i := by
      rw [hidx]; rfl
    obtain ⟨h1, h2, h3⟩ := ih (fun w hw => hv w (List.mem_cons_of_mem _ hw))
      (incrementAt bins i) (by rw [incrementAt_length, hb])
    simp only [List.foldl_cons, hstepEq]
    refine ⟨h1, ?_, ?_⟩
    · rw [h2, incrementAt_sum bins i (by omega), List.length_cons]; omega
    · intro j hj
      rw [h3 j hj, incrementAt_getD bins i j (by omega), List.filter_cons, ← hmin]
      by_cases hji : j = i
      · subst hji; simp; omega
      · have : ¬ ((i : Int) = (j : Int)) := by omega
        simp [hji, this]

/-- What `getBins` returns when the values are not all equal: `binsCount`
counts, one for each value, each value counted in the bin
min(floor((v - min) / step), binsCount - 1). -/
theorem getBins_spread (values : List K) (n : Nat) (mn mx : K) (hn : 0 < n)
    (hmn : mn ∈ values ∧ ∀ v ∈ values, mn ≤ v) (hmx : mx ∈ values ∧ ∀ v ∈ values, v ≤ mx)
    (hlt : mn < mx) :
    (getBins values n).length = n ∧ (getBins values n).sum = values.length ∧
    ∀ j : Nat, j < n →
      (getBins values n).getD j 0 =
        (values.filter (fun v =>
          min (Int.floor ((v - mn) / ((mx - mn) / (n : K)))) ((n : Int) - 1) =
            (j : Int))).length := by
  have hnK : (0 : K) < (n : K) := by exact_mod_cast hn
  have hstep : 0 < (mx - mn) / (n : K) := div_pos (sub_pos.2 hlt) hnK
  have hrange : ∀ v ∈ values, mn ≤ v ∧ v - mn ≤ (mx - mn) / (n : K) * (n : K) := by
    intro v hv
    rw [div_mul_cancel₀ _ (ne_of_gt hnK)]
    exact ⟨hmn.2 v hv, by linarith [hmx.2 v hv]⟩
  obtain ⟨h1, h2, h3⟩ := getBins_loop mn ((mx - mn) / (n : K)) n hn hstep values hrange
    (List.replicate n 0) (List.length_replicate _ _)
  have hdef : getBins values n =
      values.foldl (fun bins v => incrementBin bins (binIndex mn ((mx - mn) / (n : K)) n v))
        (List.replicate n 0) := by
    unfold getBins
    rw [mathMin_of_least values mn hmn.1 hmn.2, mathMax_of_greatest values mx hmx.1 hmx.2]
  rw [hdef]
  refine ⟨h1, ?_, ?_⟩
  · rw [h2]; simp
  · intro j hj
    rw [h3 j hj]
    simp [List.getD_eq_getElem?_getD, hj]

/-- What `getBins` returns when all values are equal: no value is counted. -/
theorem getBins_constant (values : List K) (n : Nat) (c : K) (h : ∀ v ∈ values, v = c) :
    getBins values n = List.replicate n 0 := by
  cases hv : values with
  | nil => rfl
  | cons a rest =>
    have hc : c ∈ values := by
      rw [hv, ← h a (by rw [hv]; exact List.mem_cons_self _ _)]
      exact List.mem_cons_self _ _
    have hmin := mathMin_of_least values c hc (fun v hv' => le_of_eq (h v hv').symm)
    have hmax := mathMax_of_greatest values c hc (fun v hv' => le_of_eq (h v hv'))
    rw [← hv]
    unfold getBins
    rw [hmin, hmax]
    simp only [sub_self, zero_div]
    have hfold : ∀ (vs : List K) (bins : List Nat),
        vs.foldl (fun bins v => incrementBin bins (binIndex c 0 n v)) bins = bins := by
      intro vs
      induction vs with
      | nil => intro bins; rfl
      | cons v vs ih =>
        intro bins
        rw [List.foldl_cons]
        have : binIndex c (0 : K) n v = none := by simp [binIndex]
        rw [this]
        exact ih bins
    exact hfold values _

end Bins

/-- Sample values of the rounding to doubles: 0.1, 1/3 and 7.1; ties go to the
even neighbour (`2 ^ 53 + 1`, `2 ^ 53 + 3`); below the least exponent the
spacing is `2 ^ -1074`; the greatest double is kept and the next half step
overflows; `1 + 2 ^ -53` is 1 in doubles, and the square root of 2 is
rounded. -/
theorem Dbl_round_samples :
    Dbl.round (1 / 10) = Dbl.finite (3602879701896397 * pow2 (-55)) ∧
    Dbl.round (1 / 3) = Dbl.finite (6004799503160661 * pow2 (-54)) ∧
    Dbl.round (71 / 10) = Dbl.finite (3996944669291315 * pow2 (-49)) ∧
    Dbl.round (pow2 53 + 1) = Dbl.finite (pow2 53) ∧
    Dbl.round (pow2 53 + 3) = Dbl.finite (pow2 53 + 4) ∧
    Dbl.round (3 * pow2 (-1075)) = Dbl.finite (pow2 (-1073)) ∧
    Dbl.round (pow2 (-1075)) = Dbl.finite 0 ∧
    Dbl.round (5 * pow2 (-1076)) = Dbl.finite (pow2 (-1074)) ∧
    Dbl.round (9007199254740991 * pow2 971) = Dbl.finite (9007199254740991 * pow2 971) ∧
    Dbl.round (pow2 1024 - pow2 970) = Dbl.posInf ∧
    Dbl.round (pow2 1024 - pow2 970 - 1) = Dbl.finite (9007199254740991 * pow2 971) ∧
    Dbl.add (Dbl.finite 1) (Dbl.finite (pow2 (-53))) = Dbl.finite 1 ∧
    Dbl.sqrt (Dbl.finite 2) = Dbl.finite (6369051672525773 * pow2 (-52)) := by
  decide!

/-! ## The claims -/

/-- Claim C1: `calculateMedian` equals the reference median.  For every list
of numbers and every ascending arrangement `s` of it, the value returned is the
reference median read off `s`: `0` for the empty list, the middle element for
an odd length, the average of the elements at indices `n/2 - 1` and `n/2` for
an even length.  In particular median([]) = 0, median([5]) = 5,
median([1,3]) = 2 and median([1,2,3]) = 2. -/
theorem calculateMedian_eq_referenceMedian :
    (∀ values s : List K, s.Sorted (· ≤ ·) → s.Perm values →
        referenceMedian s = some (calculateMedian values)) ∧
      calculateMedian ([] : List K) = 0 ∧
      calculateMedian ([5] : List K) = 5 ∧
      calculateMedian ([1, 3] : List K) = 2 ∧
      calculateMedian ([1, 2, 3] : List K) = 2 := by
  refine ⟨?_, by simp [calculateMedian], by simp [calculateMedian],
    by norm_num [calculateMedian], by norm_num [calculateMedian]⟩
  intro values s hs hp
  have hsort := insertionSort_eq_of_sorted_perm values s hs hp
  have hlen : s.length = values.length := hp.length_eq
  unfold referenceMedian calculateMedian
  simp only [hsort, hlen]
  by_cases h0 : values.length = 0
  · simp [h0]
  · have h1 : values.length / 2 < s.length := by omega
    rcases Nat.mod_two_eq_zero_or_one values.length with he | ho
    · have h2 : values.length / 2 - 1 < s.length := by omega
      simp [h0, he, List.getD_eq_getElem?_getD, List.getElem?_eq_getElem h1,
        List.getElem?_eq_getElem h2]
    · simp [h0, ho, List.getD_eq_getElem?_getD, List.getElem?_eq_getElem h1]

/-- Witness of C1: the values 3, 1, 2 with their ascending arrangement
1, 2, 3. -/
theorem calculateMedian_eq_referenceMedian_witness :
    ([1, 2, 3] : List ℚ).Sorted (· ≤ ·) ∧ ([1, 2, 3] : List ℚ).Perm [3, 1, 2] ∧
      referenceMedian ([1, 2, 3] : List ℚ) = some (calculateMedian [3, 1, 2]) :=
  ⟨by norm_num [List.Sorted], by decide,
    calculateMedian_eq_referenceMedian.1 [3, 1, 2] [1, 2, 3] (by norm_num [List.Sorted])
      (by decide)⟩

/-- Claim C2: `calculateMedian` is invariant under input order: on a list of
numbers and on any permutation of it, it returns the same value. -/
theorem calculateMedian_perm_invariant (l₁ l₂ : List K) (h : l₁.Perm l₂) :
    calculateMedian l₁ = calculateMedian l₂ := by
  have hs : l₁.insertionSort (· ≤ ·) = l₂.insertionSort (· ≤ ·) :=
    insertionSort_eq_of_sorted_perm l₁ _ (List.sorted_insertionSort _ l₂)
      ((List.perm_insertionSort _ l₂).trans h.symm)
  unfold calculateMedian
  simp only [hs, h.length_eq]

/-- Witness of C2: the list 4, 1, 3, 2 and its rearrangement 1, 2, 3, 4. -/
theorem calculateMedian_perm_invariant_witness :
    ([4, 1, 3, 2] : List ℚ).Perm [1, 2, 3, 4] ∧
      calculateMedian ([4, 1, 3, 2] : List ℚ) = calculateMedian [1, 2, 3, 4] :=
  ⟨by decide, calculateMedian_perm_invariant [4, 1, 3, 2] [1, 2, 3, 4] (by decide)⟩

/-- Claim C3: `preprocessData` is idempotent: running it twice leaves exactly
the same dataset, every field of every record included, as running it once. -/
theorem preprocessData_idempotent (dataset : List (Passenger K)) :
    preprocessData (preprocessData dataset) = preprocessData dataset := by
  have h := preprocessLoop_fixed (preprocessData dataset) [] (by
    intro q hq live
    obtain ⟨p, _, live₀, rfl⟩ := preprocessData_mem dataset q hq
    exact processPassenger_fixed live₀ live p)
  simpa [preprocessData] using h

/-- Claim C4: for every dataset, also one in which every Age is missing, after
`preprocessData` the Age of every record is a number (never `null`). -/
theorem preprocessData_age_present (dataset : List (Passenger K)) (q : Passenger K)
    (hq : q ∈ preprocessData dataset) : ∃ a : K, q.Age = some a := by
  obtain ⟨p, _, live, rfl⟩ := preprocessData_mem dataset q hq
  cases hA : p.Age <;> simp [processPassenger, hA]

/-- Witness of C4: a dataset of two copies of record 3, so that every Age is
missing. -/
theorem preprocessData_age_present_witness :
    processPassenger [record3, record3] (record3 : Passenger ℚ) ∈
        preprocessData [record3, record3] ∧
      ∃ a : ℚ, (processPassenger [record3, record3] (record3 : Passenger ℚ)).Age = some a :=
  ⟨by simp [preprocessData, preprocessLoop],
    preprocessData_age_present [record3, record3] _ (by simp [preprocessData, preprocessLoop])⟩

/-- Counterexample to C5 as stated: a record whose Embarked cell is the text
"X" keeps it through `preprocessData`, and "X" is none of "C", "Q", "S". -/
theorem preprocessData_embarked_stray :
    ∃ q ∈ preprocessData [(strayPortRecord : Passenger ℚ)],
      q.Embarked = some "X" ∧ q.Embarked ∉ [some "C", some "Q", some "S"] := by
  refine ⟨processPassenger [strayPortRecord] strayPortRecord, ?_, ?_, ?_⟩
  · simp [preprocessData, preprocessLoop]
  · simp [processPassenger, strayPortRecord, embarkedFalsy]
  · simp [processPassenger, strayPortRecord, embarkedFalsy]

/-- Claim C5, amended: after `preprocessData` no record has a missing (falsy)
Embarked; record by record, a missing or empty Embarked has become "S" and any
other value is kept as it was.  Hence the Embarked of a record is one of "C",
"Q", "S" whenever it was missing, empty or already one of the three before. -/
theorem preprocessData_embarked_filled (dataset : List (Passenger K)) :
    List.Forall₂
      (fun p q =>
        q.Embarked = (if embarkedFalsy p.Embarked then some "S" else p.Embarked) ∧
        embarkedFalsy q.Embarked = false ∧
        (p.Embarked ∈ [none, some "", some "C", some "Q", some "S"] →
          q.Embarked ∈ [some "C", some "Q", some "S"]))
      dataset (preprocessData dataset) := by
  refine (preprocessData_spec dataset).imp ?_
  rintro p q ⟨live, rfl⟩
  refine ⟨rfl, embarkedFalsy_fill p.Embarked, ?_⟩
  intro h
  show (if embarkedFalsy p.Embarked then some "S" else p.Embarked) ∈ _
  simp only [List.mem_cons, List.mem_singleton, List.not_mem_nil, or_false] at h
  rcases h with h | h | h | h | h <;> rw [h] <;> decide

/-- Witness of C5 (amended): the example dataset. -/
theorem preprocessData_embarked_filled_witness :
    List.Forall₂
      (fun (p q : Passenger ℚ) =>
        q.Embarked = (if embarkedFalsy p.Embarked then some "S" else p.Embarked) ∧
        embarkedFalsy q.Embarked = false ∧
        (p.Embarked ∈ [none, some "", some "C", some "Q", some "S"] →
          q.Embarked ∈ [some "C", some "Q", some "S"]))
      (exampleDataset : List (Passenger ℚ))
      (preprocessData (exampleDataset : List (Passenger ℚ))) :=
  preprocessData_embarked_filled exampleDataset

/-- Claim C6: for every record, after `preprocessData` FamilySize equals
SibSp + Parch + 1, and IsAlone is 1 exactly when FamilySize equals 1 and 0
otherwise. -/
theorem preprocessData_familySize (dataset : List (Passenger K)) (q : Passenger K)
    (hq : q ∈ preprocessData dataset) :
    q.FamilySize = some (q.SibSp + q.Parch + 1) ∧
      (q.IsAlone = some 1 ↔ q.FamilySize = some 1) ∧
      (q.IsAlone = some 0 ↔ q.FamilySize ≠ some 1) := by
  obtain ⟨p, _, live, rfl⟩ := preprocessData_mem dataset q hq
  refine ⟨rfl, ?_, ?_⟩
  · show some (if p.SibSp + p.Parch + 1 = 1 then (1 : K) else 0) = some 1 ↔
      some (p.SibSp + p.Parch + 1) = some 1
    by_cases h : p.SibSp + p.Parch + 1 = 1 <;> simp [h]
  · show some (if p.SibSp + p.Parch + 1 = 1 then (1 : K) else 0) = some 0 ↔
      some (p.SibSp + p.Parch + 1) ≠ some 1
    by_cases h : p.SibSp + p.Parch + 1 = 1 <;> simp [h]

/-- Witness of C6: record 2 (one sibling, no parent) within the example
dataset. -/
theorem preprocessData_familySize_witness :
    processPassenger [processPassenger exampleDataset record1, record2, record3, record4]
        (record2 : Passenger ℚ) ∈ preprocessData exampleDataset ∧
      (processPassenger [processPassenger exampleDataset record1, record2, record3, record4]
        (record2 : Passenger ℚ)).FamilySize = some (1 + 0 + 1) :=
  ⟨by simp [preprocessData, preprocessLoop, exampleDataset],
    (preprocessData_familySize exampleDataset _
      (by simp [preprocessData, preprocessLoop, exampleDataset])).1⟩

/-- Claim C7: for every record, whatever text its Name holds, after
`preprocessData` the Title is one of Mr, Miss, Mrs, Master, Other; in
particular it is never "Unknown". -/
theorem preprocessData_title (dataset : List (Passenger K)) (q : Passenger K)
    (hq : q ∈ preprocessData dataset) :
    q.Title ∈ [some "Mr", some "Miss", some "Mrs", some "Master", some "Other"] ∧
      q.Title ≠ some "Unknown" := by
  obtain ⟨p, _, live, rfl⟩ := preprocessData_mem dataset q hq
  have h := normalizeTitle_mem (rawTitle p.Name)
  refine ⟨h, ?_⟩
  simp only [List.mem_cons, List.mem_singleton, List.not_mem_nil, or_false] at h
  show normalizeTitle (rawTitle p.Name) ≠ some "Unknown"
  rcases h with h | h | h | h | h <;> rw [h] <;> decide

/-- Witness of C7: a record whose Name has no ", " separator. -/
theorem preprocessData_title_witness :
    processPassenger [plainNameRecord] (plainNameRecord : Passenger ℚ) ∈
        preprocessData [plainNameRecord] ∧
      (processPassenger [plainNameRecord] (plainNameRecord : Passenger ℚ)).Title ∈
        [some "Mr", some "Miss", some "Mrs", some "Master", some "Other"] ∧
      (processPassenger [plainNameRecord] (plainNameRecord : Passenger ℚ)).Title ≠
        some "Unknown" :=
  ⟨by simp [preprocessData, preprocessLoop],
    preprocessData_title [plainNameRecord] _ (by simp [preprocessData, preprocessLoop])⟩

/-- Claim C8: the Pearson computation of `calculateCorrelations`, applied to a
series against itself, gives 1.  With a square root that is exact on squares,
`pearson sqrt x x = 1` for every non-constant series `x`; and for a dataset in
which the cells of a feature are, record by record, the Survived values and
these are not all equal, the coefficient of the feature is 1. -/
theorem pearson_self_eq_one (sqrt : K → K) (hsqrt : ∀ a : K, 0 ≤ a → sqrt (a * a) = a) :
    (∀ x : List K, (∃ a ∈ x, ∃ b ∈ x, a ≠ b) → pearson sqrt x x = 1) ∧
      ∀ (dataset : List (Passenger K)) (f : String),
        (∀ p ∈ dataset, p.get f = Cell.num p.Survived) →
        (∃ p ∈ dataset, ∃ q ∈ dataset, p.Survived ≠ q.Survived) →
        correlation sqrt dataset f = 1 := by
  refine ⟨fun x hx => pearson_self sqrt hsqrt x hx, ?_⟩
  intro dataset f hcell hvar
  have hx : dataset.map (fun p => (p.get f).toNum) = dataset.map (fun p => p.Survived) := by
    apply List.map_congr_left
    intro p hp
    rw [hcell p hp]
    rfl
  unfold correlation
  rw [hx]
  apply pearson_self sqrt hsqrt
  obtain ⟨p, hp, q, hq, hpq⟩ := hvar
  exact ⟨p.Survived, List.mem_map.2 ⟨p, hp, rfl⟩, q.Survived, List.mem_map.2 ⟨q, hq, rfl⟩, hpq⟩

/-- Witness of C8: the real square root and the series 0, 1. -/
theorem pearson_self_eq_one_witness :
    (∀ a : ℝ, 0 ≤ a → Real.sqrt (a * a) = a) ∧
      (∃ a ∈ ([0, 1] : List ℝ), ∃ b ∈ ([0, 1] : List ℝ), a ≠ b) ∧
      pearson Real.sqrt ([0, 1] : List ℝ) [0, 1] = 1 :=
  ⟨fun _ ha => Real.sqrt_mul_self ha, ⟨0, by simp, 1, by simp, by norm_num⟩,
    (pearson_self_eq_one Real.sqrt (fun _ ha => Real.sqrt_mul_self ha)).1 [0, 1]
      ⟨0, by simp, 1, by simp, by norm_num⟩⟩

/-- Claim C9, evaluated on the code at an input where it fails.  In three
records whose Fare is 7.1 and whose Survived values are 1, 0, 0 the Fare column
is constant, but the mean the source computes in doubles, (0 + 7.1 + 7.1 + 7.1)
/ 3, is the double just below 7.1; so `dx` is `3 * 2 ^ -100` and not 0, the
guard `dx&&dy` passes, and the coefficient of Fare is
`1592262918131443 * 2 ^ -104` (about 7.85e-17), not 0. -/
theorem calculateCorrelationsDbl_constant_fare :
    (preprocessDataDbl constantFareDataset).map (fun p => p.Fare) =
      [Dbl.finite (3996944669291315 * pow2 (-49)), Dbl.finite (3996944669291315 * pow2 (-49)),
        Dbl.finite (3996944669291315 * pow2 (-49))] ∧
    meanDbl ((preprocessDataDbl constantFareDataset).map (fun p => p.Fare)) =
      Dbl.finite (7993889338582629 * pow2 (-50)) ∧
    correlationSumsDbl ((preprocessDataDbl constantFareDataset).map (fun p => p.Fare))
        ((preprocessDataDbl constantFareDataset).map (fun p => p.Survived)) =
      (Dbl.finite (pow2 (-103)), Dbl.finite (3 * pow2 (-100)),
        Dbl.finite (3002399751580331 * pow2 (-52))) ∧
    (calculateCorrelationsDbl (preprocessDataDbl constantFareDataset)).lookup "Fare" =
      some (Dbl.finite (1592262918131443 * pow2 (-104))) ∧
    (calculateCorrelationsDbl (preprocessDataDbl constantFareDataset)).lookup "Fare" ≠
      some (Dbl.finite 0) := by
  decide!

/-- The statement of C9 over an exact ordered field, where the mean of a
constant column is the constant (in doubles it need not be, see
`calculateCorrelationsDbl_constant_fare`): if a numeric feature holds the same
number in every record, or Survived is the same in every record,
`calculateCorrelations` assigns the feature the coefficient 0, and one of the
two sums of squares is 0. -/
theorem calculateCorrelations_constant (sqrt : K → K) (dataset : List (Passenger K))
    (f : String) (hf : f ∈ numeric)
    (h : (∃ c : K, ∀ p ∈ dataset, p.get f = Cell.num c) ∨
      (∃ s : K, ∀ p ∈ dataset, p.Survived = s)) :
    (calculateCorrelations sqrt dataset).lookup f = some 0 ∧
      ((correlationSums (dataset.map (fun p => (p.get f).toNum))
          (dataset.map (fun p => p.Survived))).2.1 = 0 ∨
        (correlationSums (dataset.map (fun p => (p.get f).toNum))
          (dataset.map (fun p => p.Survived))).2.2 = 0) := by
  have hguard : (correlationSums (dataset.map (fun p => (p.get f).toNum))
        (dataset.map (fun p => p.Survived))).2.1 = 0 ∨
      (correlationSums (dataset.map (fun p => (p.get f).toNum))
        (dataset.map (fun p => p.Survived))).2.2 = 0 := by
    rcases h with ⟨c, hc⟩ | ⟨s, hs⟩
    · left
      apply correlationSums_dx_of_constant _ _ c
      intro a ha
      obtain ⟨p, hp, rfl⟩ := List.mem_map.1 ha
      rw [hc p hp]
      rfl
    · right
      apply correlationSums_dy_of_constant _ _ s
      intro b hb
      obtain ⟨p, hp, rfl⟩ := List.mem_map.1 hb
      exact hs p hp
  have hcorr : correlation sqrt dataset f = 0 := by
    unfold correlation pearson
    rcases hguard with h0 | h0
    · simp [h0]
    · simp [h0]
  refine ⟨?_, hguard⟩
  simp only [numeric, List.mem_cons, List.mem_singleton, List.not_mem_nil, or_false] at hf
  rcases hf with rfl | rfl | rfl | rfl | rfl <;>
    simp [calculateCorrelations, numeric, List.lookup, hcorr]

/-- An instance of `calculateCorrelations_constant`: Parch is 0 in every record
of the example dataset. -/
theorem calculateCorrelations_constant_witness :
    "Parch" ∈ numeric ∧
      (∀ p ∈ (exampleDataset : List (Passenger ℝ)), p.get "Parch" = Cell.num 0) ∧
      (calculateCorrelations Real.sqrt (exampleDataset : List (Passenger ℝ))).lookup "Parch" =
        some 0 :=
  ⟨by decide, by simp [exampleDataset, record1, record2, record3, record4, Passenger.get],
    (calculateCorrelations_constant Real.sqrt exampleDataset "Parch" (by decide)
      (Or.inl ⟨0, by simp [exampleDataset, record1, record2, record3, record4,
        Passenger.get]⟩)).1⟩

/-- Claim C10: for every dataset and every categorical feature (Pclass, Sex,
Embarked, Title, IsAlone), the category totals computed by
`analyzeFeatureImportance` sum to the number of records; the categories summed
over are pairwise distinct. -/
theorem categoricalResults_total_sum (dataset : List (Passenger K)) :
    (analyzeFeatureImportance dataset).1.map
        (fun e => (e.1, (e.2.map (fun s => s.2.total)).sum)) =
      categoricalFeatures.map (fun f => (f, dataset.length)) ∧
    ∀ e ∈ (analyzeFeatureImportance dataset).1, (e.2.map (fun s => s.1)).Nodup := by
  show (categoricalResults dataset).map
        (fun e => (e.1, (e.2.map (fun s => s.2.total)).sum)) =
      categoricalFeatures.map (fun f => (f, dataset.length)) ∧
    ∀ e ∈ categoricalResults dataset, (e.2.map (fun s => s.1)).Nodup
  constructor
  · unfold categoricalResults
    rw [List.map_map]
    apply List.map_congr_left
    intro f _
    simp [categoryStats_total_sum]
  · intro e he
    unfold categoricalResults at he
    obtain ⟨f, _, rfl⟩ := List.mem_map.1 he
    have : (categoryStats dataset f).map (fun s => s.1) =
        distinct (dataset.map (fun p => p.get f)) := by
      unfold categoryStats
      rw [List.map_map]
      exact List.map_id _
    rw [this]
    exact distinct_nodup _

/-- Witness of C10: the Sex entry of the example dataset, after preprocessing,
has distinct categories. -/
theorem categoricalResults_total_sum_witness :
    ("Sex", categoryStats (preprocessData (exampleDataset : List (Passenger ℚ))) "Sex") ∈
        (analyzeFeatureImportance (preprocessData (exampleDataset : List (Passenger ℚ)))).1 ∧
      ((categoryStats (preprocessData (exampleDataset : List (Passenger ℚ))) "Sex").map
        (fun s => s.1)).Nodup :=
  ⟨by simp [analyzeFeatureImportance, categoricalResults, categoricalFeatures],
    (categoricalResults_total_sum (preprocessData exampleDataset)).2
      ("Sex", categoryStats (preprocessData exampleDataset) "Sex")
      (by simp [analyzeFeatureImportance, categoricalResults, categoricalFeatures])⟩

/-- Claim C11, evaluated on the code at an input where it fails: the
categorical result of a dataset with the passenger classes 1 and 2 only holds
the rates 50 and 50 for male and female and 100 and 0 for the two classes, so
the class impact 100 exceeds the gender impact 0 and the rule of C11 selects
"Passenger Class"; but `determineMostImportantFactor` selects nothing: it
throws when it reads the rate of class 3 for the detail. -/
theorem determineMostImportantFactor_twoClasses :
    lookupKey "Sex" (analysisOf (twoClassDataset : List (Passenger ℚ))).1 =
      some [(Cell.str "male", ⟨50, 2⟩), (Cell.str "female", ⟨50, 2⟩)] ∧
    lookupKey "Pclass" (analysisOf (twoClassDataset : List (Passenger ℚ))).1 =
      some [(Cell.num 1, ⟨100, 2⟩), (Cell.num 2, ⟨0, 2⟩)] ∧
    determineMostImportantFactor (analysisOf (twoClassDataset : List (Passenger ℚ))).1
        (analysisOf (twoClassDataset : List (Passenger ℚ))).2 = none := by
  decide!

/-- The rule of C11 where the code follows it: for every categorical result
that holds rates for male and female and, among its Pclass values, for the
classes 1 and 3, with
genderImpact = |rate(male) - rate(female)| and pclassImpact = greatest Pclass
rate - least Pclass rate, `determineMostImportantFactor` returns a finding; its
factor is "Passenger Class" exactly when pclassImpact > genderImpact and
pclassImpact > 0, "Gender" exactly when genderImpact > 0 and pclassImpact <=
genderImpact, and empty exactly when both impacts are 0.  So on a tie Gender
wins, and the selected factor has the larger impact. -/
theorem determineMostImportantFactor_priority
    (catResults : List (String × List (Cell K × CategoryStat K)))
    (numResults : List (String × List (Cell K) × List (Cell K)))
    (sex pclass : List (Cell K × CategoryStat K)) (male female first third : CategoryStat K)
    (hi lo : K)
    (hsex : lookupKey "Sex" catResults = some sex)
    (hmale : lookupKey (Cell.str "male") sex = some male)
    (hfemale : lookupKey (Cell.str "female") sex = some female)
    (hpclass : lookupKey "Pclass" catResults = some pclass)
    (hfirst : lookupKey (Cell.num 1) pclass = some first)
    (hthird : lookupKey (Cell.num 3) pclass = some third)
    (hhi : hi ∈ pclass.map (fun e => e.2.rate) ∧ ∀ r ∈ pclass.map (fun e => e.2.rate), r ≤ hi)
    (hlo : lo ∈ pclass.map (fun e => e.2.rate) ∧ ∀ r ∈ pclass.map (fun e => e.2.rate), lo ≤ r) :
    ∃ finding : KeyFinding K,
      determineMostImportantFactor catResults numResults = some finding ∧
      (finding.factor = "Passenger Class" ↔
        hi - lo > |male.rate - female.rate| ∧ hi - lo > 0) ∧
      (finding.factor = "Gender" ↔
        |male.rate - female.rate| > 0 ∧ hi - lo ≤ |male.rate - female.rate|) ∧
      (finding.factor = "" ↔ |male.rate - female.rate| = 0 ∧ hi - lo = 0) := by
  have hpos : 0 ≤ hi - lo := sub_nonneg.2 (hhi.2 lo hlo.1)
  have hg : 0 ≤ |male.rate - female.rate| := abs_nonneg _
  have heq := determineMostImportantFactor_eq catResults numResults sex pclass male female hi lo
    hsex hmale hfemale hpclass (mathMax_of_greatest _ hi hhi.1 hhi.2)
    (mathMin_of_least _ lo hlo.1 hlo.2)
  simp only [hfirst, hthird] at heq
  by_cases h1 : hi - lo > |male.rate - female.rate|
  · rw [if_pos h1] at heq
    refine ⟨_, heq, ?_, ?_, ?_⟩
    · simp only [true_iff]
      exact ⟨h1, lt_of_le_of_lt hg h1⟩
    · constructor
      · intro h; simp at h
      · intro h; exact absurd h1 (not_lt.2 h.2)
    · constructor
      · intro h; simp at h
      · intro h; rw [h.1, h.2] at h1; exact absurd h1 (lt_irrefl _)
  · rw [if_neg h1] at heq
    by_cases h2 : |male.rate - female.rate| > 0
    · rw [if_pos h2] at heq
      refine ⟨_, heq, ?_, ?_, ?_⟩
      · constructor
        · intro h; simp at h
        · intro h; exact absurd h.1 h1
      · simp only [true_iff]
        exact ⟨h2, not_lt.1 h1⟩
      · constructor
        · intro h; simp at h
        · intro h; rw [h.1] at h2; exact absurd h2 (lt_irrefl _)
    · rw [if_neg h2] at heq
      have hz : |male.rate - female.rate| = 0 := le_antisymm (not_lt.1 h2) hg
      refine ⟨_, heq, ?_, ?_, ?_⟩
      · constructor
        · intro h; simp at h
        · intro h; exact absurd h.1 h1
      · constructor
        · intro h; simp at h
        · intro h; exact absurd h.1 h2
      · simp only [true_iff]
        refine ⟨hz, le_antisymm ?_ hpos⟩
        rw [← hz]; exact not_lt.1 h1

/-- An instance of the rule of C11: the categorical result of the example
dataset, where the two impacts tie at 100. -/
theorem determineMostImportantFactor_priority_witness :
    ∃ finding : KeyFinding ℚ,
      determineMostImportantFactor (analysisOf (exampleDataset : List (Passenger ℚ))).1
        (analysisOf (exampleDataset : List (Passenger ℚ))).2 = some finding ∧
      (finding.factor = "Passenger Class" ↔
        (100 : ℚ) - 0 > |(0 : ℚ) - 100| ∧ (100 : ℚ) - 0 > 0) ∧
      (finding.factor = "Gender" ↔ |(0 : ℚ) - 100| > 0 ∧ (100 : ℚ) - 0 ≤ |(0 : ℚ) - 100|) ∧
      (finding.factor = "" ↔ |(0 : ℚ) - 100| = 0 ∧ (100 : ℚ) - 0 = 0) :=
  determineMostImportantFactor_priority (analysisOf exampleDataset).1
    (analysisOf exampleDataset).2
    [(Cell.str "female", ⟨100, 2⟩), (Cell.str "male", ⟨0, 2⟩)]
    [(Cell.num 1, ⟨100, 2⟩), (Cell.num 3, ⟨0, 2⟩)]
    ⟨0, 2⟩ ⟨100, 2⟩ ⟨100, 2⟩ ⟨0, 2⟩ 100 0
    (by decide!) (by decide!) (by decide!) (by decide!) (by decide!) (by decide!)
    (by decide!) (by decide!)

/-- Counterexample to C12 as stated: in the categorical result of a dataset
whose passenger classes 1, 2, 3 have the rates 50, 100, 0, the factor selected
is "Passenger Class" and the detail shows 50 and 0, the rates of the classes 1
and 3; the greatest rate, 100, is not shown. -/
theorem determineMostImportantFactor_middleClass :
    lookupKey "Pclass" (analysisOf (middleClassDataset : List (Passenger ℚ))).1 =
      some [(Cell.num 1, ⟨50, 2⟩), (Cell.num 2, ⟨100, 1⟩), (Cell.num 3, ⟨0, 1⟩)] ∧
    mathMax ([50, 100, 0] : List ℚ) = some 100 ∧
    determineMostImportantFactor (analysisOf (middleClassDataset : List (Passenger ℚ))).1
        (analysisOf (middleClassDataset : List (Passenger ℚ))).2 =
      some ⟨"Passenger Class", [("1st class", 50), ("3rd class", 0)]⟩ := by
  decide!

/-- Claim C12, amended: whenever `determineMostImportantFactor` selects
"Passenger Class", the two rates shown in the detail are the rate of passenger
class 1 and the rate of passenger class 3, in this order; whenever it selects
"Gender", they are the female rate and the male rate. -/
theorem determineMostImportantFactor_details
    (catResults : List (String × List (Cell K × CategoryStat K)))
    (numResults : List (String × List (Cell K) × List (Cell K)))
    (finding : KeyFinding K)
    (h : determineMostImportantFactor catResults numResults = some finding) :
    (finding.factor = "Passenger Class" →
      ∃ pclass first third, lookupKey "Pclass" catResults = some pclass ∧
        lookupKey (Cell.num 1) pclass = some first ∧
        lookupKey (Cell.num 3) pclass = some third ∧
        finding.details = [("1st class", first.rate), ("3rd class", third.rate)]) ∧
    (finding.factor = "Gender" →
      ∃ sex male female, lookupKey "Sex" catResults = some sex ∧
        lookupKey (Cell.str "male") sex = some male ∧
        lookupKey (Cell.str "female") sex = some female ∧
        finding.details = [("Female", female.rate), ("Male", male.rate)]) := by
  obtain ⟨sex, male, female, pclass, hsex, hmale, hfemale, hpclass, hcases⟩ :=
    determineMostImportantFactor_cases catResults numResults finding h
  rcases hcases with ⟨first, third, hfirst, hthird, rfl⟩ | rfl | rfl
  · exact ⟨fun _ => ⟨pclass, first, third, hpclass, hfirst, hthird, rfl⟩,
      fun hf => by simp at hf⟩
  · exact ⟨fun hf => by simp at hf, fun _ => ⟨sex, male, female, hsex, hmale, hfemale, rfl⟩⟩
  · exact ⟨fun hf => by simp at hf, fun hf => by simp at hf⟩

/-- Witness of C12 (amended): the dataset in which class 2 has the highest
rate. -/
theorem determineMostImportantFactor_details_witness :
    determineMostImportantFactor (analysisOf (middleClassDataset : List (Passenger ℚ))).1
        (analysisOf (middleClassDataset : List (Passenger ℚ))).2 =
      some ⟨"Passenger Class", [("1st class", 50), ("3rd class", 0)]⟩ ∧
    ∃ pclass first third,
      lookupKey "Pclass" (analysisOf (middleClassDataset : List (Passenger ℚ))).1 =
        some pclass ∧
      lookupKey (Cell.num 1) pclass = some first ∧
      lookupKey (Cell.num 3) pclass = some third ∧
      [("1st class", (50 : ℚ)), ("3rd class", 0)] =
        [("1st class", first.rate), ("3rd class", third.rate)] :=
  ⟨by decide!,
    (determineMostImportantFactor_details (analysisOf middleClassDataset).1
      (analysisOf middleClassDataset).2
      ⟨"Passenger Class", [("1st class", 50), ("3rd class", 0)]⟩ (by decide!)).1 rfl⟩

/-- Claim C13: if no candidate strictly exceeds 0 impact, that is, the male and
female rates are equal and all Pclass rates are equal,
`determineMostImportantFactor` reports no factor: the factor name and the
detail both stay empty. -/
theorem determineMostImportantFactor_no_factor
    (catResults : List (String × List (Cell K × CategoryStat K)))
    (numResults : List (String × List (Cell K) × List (Cell K)))
    (sex pclass : List (Cell K × CategoryStat K)) (male female : CategoryStat K)
    (hsex : lookupKey "Sex" catResults = some sex)
    (hmale : lookupKey (Cell.str "male") sex = some male)
    (hfemale : lookupKey (Cell.str "female") sex = some female)
    (hpclass : lookupKey "Pclass" catResults = some pclass)
    (hgender : male.rate = female.rate)
    (hclass : ∀ e₁ ∈ pclass, ∀ e₂ ∈ pclass, e₁.2.rate = e₂.2.rate) :
    determineMostImportantFactor catResults numResults =
      some { factor := "", details := [] } := by
  cases hp : pclass with
  | nil =>
    subst hp
    unfold determineMostImportantFactor
    simp [hsex, hmale, hfemale, hpclass, hgender, mathMax]
  | cons e rest =>
    have hmem : e.2.rate ∈ pclass.map (fun e => e.2.rate) :=
      List.mem_map.2 ⟨e, by rw [hp]; exact List.mem_cons_self _ _, rfl⟩
    have hall : ∀ r ∈ pclass.map (fun e => e.2.rate), r = e.2.rate := by
      intro r hr
      obtain ⟨e', he', rfl⟩ := List.mem_map.1 hr
      exact hclass e' he' e (by rw [hp]; exact List.mem_cons_self _ _)
    have heq := determineMostImportantFactor_eq catResults numResults sex pclass male female
      e.2.rate e.2.rate hsex hmale hfemale hpclass
      (mathMax_of_greatest _ _ hmem (fun r hr => le_of_eq (hall r hr)))
      (mathMin_of_least _ _ hmem (fun r hr => le_of_eq (hall r hr).symm))
    rw [heq, hgender]
    simp

/-- Witness of C13: the categorical result of a dataset in which both sexes and
both passenger classes have the rate 50. -/
theorem determineMostImportantFactor_no_factor_witness :
    lookupKey "Sex" (analysisOf (evenDataset : List (Passenger ℚ))).1 =
      some [(Cell.str "male", ⟨50, 2⟩), (Cell.str "female", ⟨50, 2⟩)] ∧
    lookupKey "Pclass" (analysisOf (evenDataset : List (Passenger ℚ))).1 =
      some [(Cell.num 1, ⟨50, 2⟩), (Cell.num 3, ⟨50, 2⟩)] ∧
    determineMostImportantFactor (analysisOf (evenDataset : List (Passenger ℚ))).1
        (analysisOf (evenDataset : List (Passenger ℚ))).2 =
      some { factor := "", details := [] } :=
  ⟨by decide!, by decide!,
    determineMostImportantFactor_no_factor (analysisOf evenDataset).1 (analysisOf evenDataset).2
      [(Cell.str "male", ⟨50, 2⟩), (Cell.str "female", ⟨50, 2⟩)]
      [(Cell.num 1, ⟨50, 2⟩), (Cell.num 3, ⟨50, 2⟩)] ⟨50, 2⟩ ⟨50, 2⟩
      (by decide!) (by decide!) (by decide!) (by decide!) rfl (by decide!)⟩

/-- Claim C14: on the 4-record example dataset of the spec the pipeline gives
the imputed Age 29 for record 3 (the other Ages are kept), the overview
survival rate 50, the Sex rates female = 100 with total 2 and male = 0 with
total 2, the Pclass rates 100 and 0, so that the class impact ties with the
gender impact at 100 and does not overwrite it, and the decision rule selects
"Gender" with the female rate 100 and the male rate 0 in the detail. -/
theorem exampleDataset_pipeline :
    (preprocessData (exampleDataset : List (Passenger ℚ))).map (fun p => p.Age) =
      [some 29, some 22, some 29, some 30] ∧
    (generateOverview (preprocessData (exampleDataset : List (Passenger ℚ)))).survivedPct = 50 ∧
    lookupKey "Sex" (analysisOf (exampleDataset : List (Passenger ℚ))).1 =
      some [(Cell.str "female", ⟨100, 2⟩), (Cell.str "male", ⟨0, 2⟩)] ∧
    lookupKey "Pclass" (analysisOf (exampleDataset : List (Passenger ℚ))).1 =
      some [(Cell.num 1, ⟨100, 2⟩), (Cell.num 3, ⟨0, 2⟩)] ∧
    determineMostImportantFactor (analysisOf (exampleDataset : List (Passenger ℚ))).1
        (analysisOf (exampleDataset : List (Passenger ℚ))).2 =
      some ⟨"Gender", [("Female", 100), ("Male", 0)]⟩ := by
  decide!

/-- Claim C15: imputation is mutation-order dependent.  In the dataset with
the Ages `2 ^ 1023`, `1.5 * 2 ^ 1023`, missing, missing, the median of the
originally non-missing Ages is `Infinity` (their sum overflows), and so is the
Age written into record 3; but record 4 is processed when the live Ages are
`2 ^ 1023`, `1.5 * 2 ^ 1023`, `Infinity`, whose median is the middle one,
`1.5 * 2 ^ 1023`.  So for some dataset the Age that `preprocessData` writes into
a record with a missing Age differs from the snapshot median: the live and the
snapshot policy are not equivalent. -/
theorem imputation_depends_on_order :
    (preprocessDataDbl overflowDataset).map (fun p => p.Age) =
      [some (Dbl.finite (pow2 1023)), some (Dbl.finite (3 * pow2 1022)), some Dbl.posInf,
        some (Dbl.finite (3 * pow2 1022))] ∧
    calculateMedianDbl (numericAges overflowDataset) = Dbl.posInf ∧
    ∃ (dataset : List (Passenger Dbl)) (i : Nat) (p q : Passenger Dbl),
      dataset[i]? = some p ∧ p.Age = none ∧ (preprocessDataDbl dataset)[i]? = some q ∧
      q.Age ≠ some (calculateMedianDbl (numericAges dataset)) :=
  ⟨by decide!, by decide!,
    ⟨overflowDataset, 3, recordWithAge none,
      processPassengerDbl
        [recordWithAge (some (Dbl.finite (pow2 1023))),
          recordWithAge (some (Dbl.finite (3 * pow2 1022))),
          processPassengerDbl overflowDataset (recordWithAge none),
          recordWithAge none]
        (recordWithAge none),
      by decide!, rfl, by decide!, by decide!⟩⟩

/-- Over an exact ordered field the two policies of C15 agree (in doubles they
do not, see `imputation_depends_on_order`): the Ages after `preprocessData`,
which takes the median of the live, partly imputed dataset each time it meets a
missing Age, are the Ages of the snapshot policy, which takes the median of the
originally non-missing Ages once before any record is rewritten.  Without
rounding, adding the median of a list to the list keeps the median. -/
theorem preprocessData_ages_eq_snapshot (dataset : List (Passenger K)) :
    (preprocessData dataset).map (fun p => p.Age) = imputeAgeSnapshot dataset := by
  rw [preprocessData_eq_map, List.map_map]
  unfold imputeAgeSnapshot
  apply List.map_congr_left
  intro p _
  exact processPassenger_age dataset p

/-- Claim C16: title extraction follows the split rule.  For a Name with no
", " the raw title is "Unknown" and the final Title is Other.  For a Name whose
first ", " is preceded by `first` and followed by `rest`, with `second` the part
of `rest` before its first ", " (all of `rest` when there is none) and `title`
the part of `second` before its first ". " (all of `second` when there is
none), the raw title is `title` and the final Title is `title` if it is one of
Mr, Miss, Mrs, Master and Other otherwise.  Every Name that contains ", " has
such parts, and the Title `preprocessData` writes is the final Title of the
record's Name. -/
theorem rawTitle_split_rule :
    (∀ name : String, ¬ containsText name ", " →
      rawTitle name = some "Unknown" ∧ normalizeTitle (rawTitle name) = some "Other") ∧
    (∀ name first rest second title : String,
      name = first ++ ", " ++ rest → ¬ containsText first ", " →
      IsFirstPiece ", " rest second → IsFirstPiece ". " second title →
      rawTitle name = some title ∧
        normalizeTitle (rawTitle name) =
          if title ∈ commonTitles then some title else some "Other") ∧
    (∀ name : String, containsText name ", " →
      ∃ first rest second title : String,
        name = first ++ ", " ++ rest ∧ ¬ containsText first ", " ∧
        IsFirstPiece ", " rest second ∧ IsFirstPiece ". " second title) ∧
    (∀ (dataset : List (Passenger K)) (q : Passenger K), q ∈ preprocessData dataset →
      q.Title = normalizeTitle (rawTitle q.Name)) := by
  refine ⟨?_, ?_, ?_, ?_⟩
  · intro name hfree
    have h : jsSplit name ", " = [name] := jsSplit_free ',' ' ' name hfree
    have hraw : rawTitle name = some "Unknown" := by
      unfold rawTitle
      rw [h]
    rw [hraw]
    exact ⟨rfl, by decide⟩
  · intro name first rest second title hname hfree hsecond htitle
    obtain ⟨more, hmore⟩ := jsSplit_head ',' ' ' (by decide) rest second hsecond
    obtain ⟨more', hmore'⟩ := jsSplit_head '.' ' ' (by decide) second title htitle
    have h : jsSplit name ", " = first :: second :: more := by
      rw [hname]
      have h1 : jsSplit (first ++ ", " ++ rest) ", " = first :: jsSplit rest ", " :=
        jsSplit_first ',' ' ' (by decide) first rest hfree
      rw [h1]
      exact congrArg (List.cons first) hmore
    have hraw : rawTitle name = some title := by
      unfold rawTitle
      rw [h]
      show (jsSplit second ". ").head? = some title
      have h2 : jsSplit second ". " = title :: more' := hmore'
      rw [h2]
      rfl
    rw [hraw]
    exact ⟨rfl, rfl⟩
  · intro name hcontains
    obtain ⟨first, hfirst⟩ := exists_firstPiece ", " name (by decide)
    obtain ⟨hfree, hname | ⟨rest, hname⟩⟩ := hfirst
    · rw [hname] at hcontains
      exact absurd hcontains hfree
    · obtain ⟨second, hsecond⟩ := exists_firstPiece ", " rest (by decide)
      obtain ⟨title, htitle⟩ := exists_firstPiece ". " second (by decide)
      exact ⟨first, rest, second, title, hname, hfree, hsecond, htitle⟩
  · intro dataset q hq
    obtain ⟨p, _, live, rfl⟩ := preprocessData_mem dataset q hq
    rfl

/-- Witness of C16: the Name "Smith, Mrs. Jane" of record 1. -/
theorem rawTitle_split_rule_witness :
    rawTitle "Smith, Mrs. Jane" = some "Mrs" ∧
      normalizeTitle (rawTitle "Smith, Mrs. Jane") =
        if "Mrs" ∈ commonTitles then some "Mrs" else some "Other" :=
  (rawTitle_split_rule (K := ℚ)).2.1 "Smith, Mrs. Jane" "Smith" "Mrs. Jane" "Mrs. Jane" "Mrs"
    (by decide) (by unfold containsText; decide)
    ⟨by unfold containsText; decide, Or.inl rfl⟩
    ⟨by unfold containsText; decide, Or.inr ⟨"Jane", by decide⟩⟩

/-- Claim C17: `preprocessData` changes only what it must.  It keeps the number
and the order of the records, leaves Survived, Pclass, Sex, SibSp, Parch, Fare
and Name of every record unchanged, leaves every Age that is a number unchanged
and leaves every truthy Embarked unchanged. -/
theorem preprocessData_frame (dataset : List (Passenger K)) :
    (preprocessData dataset).length = dataset.length ∧
    List.Forall₂
      (fun p q =>
        q.Survived = p.Survived ∧ q.Pclass = p.Pclass ∧ q.Sex = p.Sex ∧
        q.SibSp = p.SibSp ∧ q.Parch = p.Parch ∧ q.Fare = p.Fare ∧ q.Name = p.Name ∧
        (∀ a : K, p.Age = some a → q.Age = some a) ∧
        (embarkedFalsy p.Embarked = false → q.Embarked = p.Embarked))
      dataset (preprocessData dataset) := by
  have h := preprocessData_spec dataset
  refine ⟨h.length_eq.symm, h.imp ?_⟩
  rintro p q ⟨live, rfl⟩
  refine ⟨rfl, rfl, rfl, rfl, rfl, rfl, rfl, ?_, ?_⟩
  · intro a ha
    rw [processPassenger_age, ha]
  · intro he
    show (if embarkedFalsy p.Embarked then some "S" else p.Embarked) = p.Embarked
    rw [he]
    rfl

/-- Witness of C17: the example dataset. -/
theorem preprocessData_frame_witness :
    (preprocessData (exampleDataset : List (Passenger ℚ))).length = 4 ∧
    List.Forall₂
      (fun (p q : Passenger ℚ) =>
        q.Survived = p.Survived ∧ q.Pclass = p.Pclass ∧ q.Sex = p.Sex ∧
        q.SibSp = p.SibSp ∧ q.Parch = p.Parch ∧ q.Fare = p.Fare ∧ q.Name = p.Name ∧
        (∀ a : ℚ, p.Age = some a → q.Age = some a) ∧
        (embarkedFalsy p.Embarked = false → q.Embarked = p.Embarked))
      (exampleDataset : List (Passenger ℚ))
      (preprocessData (exampleDataset : List (Passenger ℚ))) :=
  preprocessData_frame exampleDataset

/-- Claim C18: every coefficient computed by `calculateCorrelations` lies in
[-1, 1] over exact arithmetic with a genuine square root (non-negative, and
squaring back to its argument, as the real square root does): for all series
`-1 <= pearson x y <= 1`, and for every dataset every coefficient of `corr` is
in this range, the range the axis of the correlation chart is fixed to. -/
theorem calculateCorrelations_bounds (sqrt : K → K)
    (hsqrt : ∀ a : K, 0 ≤ a → 0 ≤ sqrt a ∧ sqrt a * sqrt a = a) :
    (∀ x y : List K, -1 ≤ pearson sqrt x y ∧ pearson sqrt x y ≤ 1) ∧
    ∀ (dataset : List (Passenger K)) (e : String × K),
      e ∈ calculateCorrelations sqrt dataset → -1 ≤ e.2 ∧ e.2 ≤ 1 := by
  refine ⟨pearson_bounds sqrt hsqrt, ?_⟩
  intro dataset e he
  unfold calculateCorrelations at he
  obtain ⟨f, _, rfl⟩ := List.mem_map.1 he
  exact pearson_bounds sqrt hsqrt _ _

/-- Witness of C18: the real square root, and the series 1, 2, 4 against
0, 1, 1. -/
theorem calculateCorrelations_bounds_witness :
    (∀ a : ℝ, 0 ≤ a → 0 ≤ Real.sqrt a ∧ Real.sqrt a * Real.sqrt a = a) ∧
      -1 ≤ pearson Real.sqrt ([1, 2, 4] : List ℝ) [0, 1, 1] ∧
      pearson Real.sqrt ([1, 2, 4] : List ℝ) [0, 1, 1] ≤ 1 :=
  ⟨fun a ha => ⟨Real.sqrt_nonneg a, Real.mul_self_sqrt ha⟩,
    (calculateCorrelations_bounds Real.sqrt
      (fun a ha => ⟨Real.sqrt_nonneg a, Real.mul_self_sqrt ha⟩)).1 [1, 2, 4] [0, 1, 1]⟩

/-- Claim C19: the categorical pass never divides by zero.  For every dataset
and every categorical feature, each category enumerated by
`analyzeFeatureImportance` occurs in the dataset, so its total is at least 1;
the total is the number of records of the category, the rate equals
100 * (records of the category with Survived = 1) / total, and the rate lies in
[0, 100]. -/
theorem categoricalResults_rate (dataset : List (Passenger K))
    (entry : String × List (Cell K × CategoryStat K))
    (hentry : entry ∈ (analyzeFeatureImportance dataset).1)
    (e : Cell K × CategoryStat K) (he : e ∈ entry.2) :
    entry.1 ∈ categoricalFeatures ∧
    1 ≤ e.2.total ∧
    e.2.total = (dataset.filter (fun p => p.get entry.1 = e.1)).length ∧
    e.2.rate =
      100 * (((dataset.filter (fun p => p.get entry.1 = e.1)).filter
        (fun p => p.Survived = 1)).length : K) / (e.2.total : K) ∧
    0 ≤ e.2.rate ∧ e.2.rate ≤ 100 := by
  change entry ∈ categoricalResults dataset at hentry
  unfold categoricalResults at hentry
  obtain ⟨f, hf, rfl⟩ := List.mem_map.1 hentry
  change e ∈ categoryStats dataset f at he
  unfold categoryStats at he
  obtain ⟨c, hc, rfl⟩ := List.mem_map.1 he
  rw [mem_distinct] at hc
  obtain ⟨p, hp, hpc⟩ := List.mem_map.1 hc
  have hmem : p ∈ dataset.filter (fun p => p.get f = c) := by
    rw [List.mem_filter]
    exact ⟨hp, by simpa using hpc⟩
  have hlen : 1 ≤ (dataset.filter (fun p => p.get f = c)).length :=
    List.length_pos_of_mem hmem
  have hsurv : ((dataset.filter (fun p => p.get f = c)).filter
      (fun p => p.Survived = 1)).length ≤ (dataset.filter (fun p => p.get f = c)).length :=
    List.length_filter_le _ _
  have hlenK : (0 : K) < ((dataset.filter (fun p => p.get f = c)).length : K) := by
    exact_mod_cast hlen
  have hsurvK : ((((dataset.filter (fun p => p.get f = c)).filter
      (fun p => p.Survived = 1)).length : ℕ) : K) ≤
      ((dataset.filter (fun p => p.get f = c)).length : K) := by
    exact_mod_cast hsurv
  refine ⟨hf, hlen, rfl, ?_, ?_, ?_⟩
  · show _ / _ * 100 = 100 * _ / _
    ring
  · show 0 ≤ _ / _ * 100
    exact mul_nonneg (div_nonneg (Nat.cast_nonneg _) (le_of_lt hlenK)) (by norm_num)
  · show _ / _ * 100 ≤ 100
    have h1 : ((((dataset.filter (fun p => p.get f = c)).filter
        (fun p => p.Survived = 1)).length : ℕ) : K) /
        ((dataset.filter (fun p => p.get f = c)).length : K) ≤ 1 :=
      (div_le_one hlenK).2 hsurvK
    linarith

/-- Witness of C19: the female category of Sex in the example dataset. -/
theorem categoricalResults_rate_witness :
    (("Sex", [(Cell.str "female", ⟨100, 2⟩), (Cell.str "male", ⟨0, 2⟩)]) :
        String × List (Cell ℚ × CategoryStat ℚ)) ∈
      (analyzeFeatureImportance (preprocessData (exampleDataset : List (Passenger ℚ)))).1 ∧
    (1 : Nat) ≤ 2 ∧ (0 : ℚ) ≤ 100 ∧ (100 : ℚ) ≤ 100 :=
  ⟨by decide!,
    (categoricalResults_rate (preprocessData (exampleDataset : List (Passenger ℚ)))
      ("Sex", [(Cell.str "female", ⟨100, 2⟩), (Cell.str "male", ⟨0, 2⟩)]) (by decide!)
      (Cell.str "female", ⟨100, 2⟩) (by decide!)).2.1,
    (categoricalResults_rate (preprocessData (exampleDataset : List (Passenger ℚ)))
      ("Sex", [(Cell.str "female", ⟨100, 2⟩), (Cell.str "male", ⟨0, 2⟩)]) (by decide!)
      (Cell.str "female", ⟨100, 2⟩) (by decide!)).2.2.2.2⟩

/-- Claim C20, evaluated on the code: `getBins` counts every value exactly
once in a valid bin only when the values are not all equal.  On a non-empty
list of equal values `step` is 0, no index is a bin and the array returned holds
`binsCount` zeros, whose sum is not the number of values; so it is for the
Ages 29, 29 of the survivors of the example dataset, which `createAgeChart`
passes with `binsCount = 10`.  On a list with min < max and a positive
`binsCount` the array has `binsCount` entries whose sum is the number of
values, each value `v` counted in bin min(floor((v - min) / step),
binsCount - 1) with step = (max - min) / binsCount. -/
theorem getBins_counts :
    (∀ (F : Type) [LinearOrderedField F] [FloorRing F] (values : List F) (binsCount : Nat)
        (c : F), values ≠ [] → (∀ v ∈ values, v = c) →
      getBins values binsCount = List.replicate binsCount 0 ∧
        (getBins values binsCount).sum ≠ values.length) ∧
    (survivedBins (preprocessData (exampleDataset : List (Passenger ℚ))) = List.replicate 10 0 ∧
      getBins ([29, 29] : List ℚ) 10 = List.replicate 10 0 ∧
      (getBins ([29, 29] : List ℚ) 10).sum = 0) ∧
    (∀ (F : Type) [LinearOrderedField F] [FloorRing F] (values : List F) (binsCount : Nat)
        (lo hi : F), 0 < binsCount →
      (lo ∈ values ∧ ∀ v ∈ values, lo ≤ v) → (hi ∈ values ∧ ∀ v ∈ values, v ≤ hi) → lo < hi →
      (getBins values binsCount).length = binsCount ∧
        (getBins values binsCount).sum = values.length ∧
        ∀ j : Nat, j < binsCount →
          (getBins values binsCount).getD j 0 =
            (values.filter (fun v =>
              min (Int.floor ((v - lo) / ((hi - lo) / (binsCount : F))))
                ((binsCount : Int) - 1) = (j : Int))).length) := by
  refine ⟨?_, by decide!, ?_⟩
  · intro F _ _ values binsCount c hne hconst
    have h := getBins_constant values binsCount c hconst
    refine ⟨h, ?_⟩
    rw [h]
    have hpos : 0 < values.length := List.length_pos.2 hne
    simp
    omega
  · intro F _ _ values binsCount lo hi hn hlo hhi hlt
    exact getBins_spread values binsCount lo hi hn hlo hhi hlt

/-- Witness of C20: the values 1, 2, 3, 4, 10 in three bins. -/
theorem getBins_counts_witness :
    (getBins ([1, 2, 3, 4, 10] : List ℚ) 3).length = 3 ∧
      (getBins ([1, 2, 3, 4, 10] : List ℚ) 3).sum = ([1, 2, 3, 4, 10] : List ℚ).length ∧
      getBins ([1, 2, 3, 4, 10] : List ℚ) 3 = [3, 1, 1] :=
  ⟨(getBins_counts.2.2 ℚ [1, 2, 3, 4, 10] 3 1 10 (by decide) (by decide!) (by decide!)
      (by decide!)).1,
    (getBins_counts.2.2 ℚ [1, 2, 3, 4, 10] 3 1 10 (by decide) (by decide!) (by decide!)
      (by decide!)).2.1,
    by decide!⟩

end Week1
